import Mathlib

/-!
Shallow embedding of the HybridHashing-CPP adaptive hash table
(`src/include/HybridHashTable.hpp`, `src/include/HashFunctions.hpp`,
`src/src/HybridHashTable.cpp`).

Modelling conventions:
* `Key` is `String` (the repository instantiates the template only at
  `std::string` keys); the value type `V` stays a parameter.
* `size_t` counters are natural numbers reduced modulo `2 ^ 64` at every
  update (`w64`, `decW64`), mirroring unsigned wraparound.
* The `std::hash` capability consumed by `HashUtils` is an explicit
  parameter `stdHash : String → Nat` of `create` (the spec treats the
  hash provider as an external collaborator).  `HashUtils.hash1`,
  `HashUtils.hash2`, `HashUtils.hash` are translated from
  `HashFunctions.hpp`.
* Vectors become `List`s; `vec[i]` reads become `List.getD i none`
  (out-of-range access is UB in C++ and never exercised under `WF`),
  writes become `List.set`.
* `double` fields (`maxLoadFactor_`, the thresholds, `collisionRate`)
  are modelled as exact rationals; no claim settled here depends on
  floating-point rounding.
* The `std::shared_mutex` lock discipline is elided: every claim is
  stated at a quiescent point, where lock acquisition is a no-op.
* The call `switchModeIfNeeded(currentLoad)` inside `insert`
  (HybridHashTable.cpp line 107) is commented out in the source, so the
  model's `insert` does not invoke it.
-/

inductive HashMode where
  | Cuckoo
  | Hopscotch
  | RobinHood
deriving DecidableEq

/-- `const std::string TOMBSTONE = "__TOMBSTONE__";` (HybridHashTable.hpp line 18) -/
def TOMBSTONE : String := "__TOMBSTONE__"

/-- Truncation to 64 bits: the effect of `size_t` arithmetic. -/
def w64 (n : Nat) : Nat := n % (2 ^ 64)

/-- `size_t` decrement (`n--`), wrapping at zero like unsigned arithmetic. -/
def decW64 (n : Nat) : Nat := (n + (2 ^ 64 - 1)) % (2 ^ 64)

namespace HashUtils

/-- `HashUtils::hash1` (HashFunctions.hpp lines 9-12): the primary Cuckoo hash,
just `std::hash` (here the external capability `stdHash`). -/
def hash1 (stdHash : String → Nat) (key : String) : Nat := stdHash key

/-- `HashUtils::hash2` (HashFunctions.hpp lines 15-19): the secondary Cuckoo
hash, `(h ^ 0x9e3779b9) + (h << 6) + (h >> 2)` in `size_t` arithmetic. -/
def hash2 (stdHash : String → Nat) (key : String) : Nat :=
  let h := stdHash key
  w64 (Nat.xor h 0x9e3779b9 + w64 (h <<< 6) + h >>> 2)

/-- `HashUtils::hash` (HashFunctions.hpp lines 22-25): the single
Hopscotch/Robin Hood hash, again `std::hash`. -/
def hash (stdHash : String → Nat) (key : String) : Nat := stdHash key

end HashUtils

/-- The state of a `HybridHashTable<std::string, V>` (HybridHashTable.hpp
lines 20-105), with the mutex elided and the three `std::function` hash
members kept as function-valued fields. -/
structure HybridHashTable (V : Type) where
  table_ : List (Option (String × V))
  capacity_ : Nat
  numElements_ : Nat
  maxLoadFactor_ : ℚ
  currentMode_ : HashMode
  table2_ : List (Option (String × V))
  hash1_ : String → Nat
  hash2_ : String → Nat
  hash_ : String → Nat
  hopInfo_ : List Nat
  probeDistances_ : List Nat
  stash_ : List (String × V)
  totalInsertions_ : Nat
  totalCollisions_ : Nat
  totalProbes_ : Nat

/-- `static const int MAX_EVICTIONS = 500;` -/
def MAX_EVICTIONS : Nat := 500

/-- `static const size_t HOP_RANGE = 32;` -/
def HOP_RANGE : Nat := 32

/-- `static const size_t MAX_DISPLACEMENTS = 500;` -/
def MAX_DISPLACEMENTS : Nat := 500

/-- `static const size_t MAX_PROBE_DISTANCE = 500;` -/
def MAX_PROBE_DISTANCE : Nat := 500

/-- `static const size_t MAX_STASH_SIZE = 10000000;` -/
def MAX_STASH_SIZE : Nat := 10000000

/-- `static constexpr double HIGH_LOAD_THRESHOLD = 0.8;` -/
def HIGH_LOAD_THRESHOLD : ℚ := (8 : ℚ) / 10

/-- `static constexpr double HIGH_COLLISION_RATE = 0.5;` -/
def HIGH_COLLISION_RATE : ℚ := (1 : ℚ) / 2

namespace HybridHashTable

variable {V : Type}

/-- `hash(key)` = `hash_(key) % capacity_` (HybridHashTable.hpp line 81). -/
def hash (st : HybridHashTable V) (key : String) : Nat := st.hash_ key % st.capacity_

/-- `hash1(key)` = `hash1_(key) % capacity_` (HybridHashTable.hpp line 82). -/
def hash1 (st : HybridHashTable V) (key : String) : Nat := st.hash1_ key % st.capacity_

/-- `hash2(key)` = `hash2_(key) % capacity_` (HybridHashTable.hpp line 83). -/
def hash2 (st : HybridHashTable V) (key : String) : Nat := st.hash2_ key % st.capacity_

/-- `isTombstone(slot)` = `slot && slot->first == TOMBSTONE`
(HybridHashTable.hpp lines 84-86). -/
def isTombstone (slot : Option (String × V)) : Bool :=
  match slot with
  | some p => p.1 == TOMBSTONE
  | none => false

/-- A slot a placement algorithm may claim: `!table_[i] || isTombstone(table_[i])`. -/
def emptyOrTomb (slot : Option (String × V)) : Bool :=
  slot.isNone || isTombstone slot

/-- `getNeighborhoodStart(index)` = `(index / HOP_RANGE) * HOP_RANGE`
(HybridHashTable.hpp line 87). -/
def getNeighborhoodStart (_ : HybridHashTable V) (index : Nat) : Nat :=
  index / HOP_RANGE * HOP_RANGE

/-- `getNeighborhoodEnd(index)` = `min(start + HOP_RANGE, capacity_)`
(HybridHashTable.hpp line 88). -/
def getNeighborhoodEnd (st : HybridHashTable V) (index : Nat) : Nat :=
  min (getNeighborhoodStart st index + HOP_RANGE) st.capacity_

/-- `getProbeDistance(idealIndex, currentIndex)` (HybridHashTable.hpp lines 89-91). -/
def getProbeDistance (st : HybridHashTable V) (idealIndex currentIndex : Nat) : Nat :=
  if currentIndex ≥ idealIndex then currentIndex - idealIndex
  else st.capacity_ - idealIndex + currentIndex

/-- `collisionRate()` (HybridHashTable.hpp line 102), with the `double`
division modelled exactly in `ℚ`. -/
def collisionRate (st : HybridHashTable V) : ℚ :=
  if st.totalInsertions_ > 0 then (st.totalCollisions_ : ℚ) / (st.totalInsertions_ : ℚ)
  else 0

/-- Bounded ascending scan: applies `f` to `i, i+1, ...` for `fuel` steps and
returns the first `some`.  This is the shape of every
`for (i = lo; i < hi; ++i)` search loop in the source. -/
def scanFrom {α : Type} (f : Nat → Option α) : Nat → Nat → Option α
  | _, 0 => none
  | i, fuel + 1 =>
    match f i with
    | some a => some a
    | none => scanFrom f (i + 1) fuel

/-- `findEmptySlot(start, end)` (HybridHashTable.cpp lines 322-328): first
index in `[start, end)` whose slot is empty or tombstoned, else `capacity_`. -/
def findEmptySlot (st : HybridHashTable V) (s e : Nat) : Nat :=
  (scanFrom (fun i => if emptyOrTomb (st.table_.getD i none) then some i else none)
    s (e - s)).getD st.capacity_

/-- `updateHopInfo(baseIndex, targetIndex, add)` (HybridHashTable.cpp
lines 314-320): set or clear bit `targetIndex - start` of the 32-bit
neighborhood bitmap at `baseIndex`. -/
def updateHopInfo (st : HybridHashTable V) (baseIndex targetIndex : Nat) (add : Bool) :
    HybridHashTable V :=
  let s := getNeighborhoodStart st baseIndex
  let bitPos := targetIndex - s
  let old := st.hopInfo_.getD baseIndex 0
  let newBm := if add then old ||| (1 <<< bitPos) else Nat.ldiff old (1 <<< bitPos)
  { st with hopInfo_ := st.hopInfo_.set baseIndex newBm }

/-- `searchStash(key)` (HybridHashTable.cpp lines 273-279): linear scan of the
stash, first match wins. -/
def searchStash (st : HybridHashTable V) (key : String) : Option V :=
  st.stash_.findSome? (fun item => if item.1 == key then some item.2 else none)

/-- `insertIntoStash(key, value)` (HybridHashTable.cpp lines 265-271). -/
def insertIntoStash (st : HybridHashTable V) (key : String) (value : V) :
    HybridHashTable V × Bool :=
  if st.stash_.length ≥ MAX_STASH_SIZE then (st, false)
  else ({ st with stash_ := st.stash_ ++ [(key, value)],
                  numElements_ := w64 (st.numElements_ + 1) }, true)

/-- The in-place erase of `removeFromStash` (HybridHashTable.cpp lines 281-291):
`some rest` removes the first entry with the given key, `none` reports a miss. -/
def removeFromStashAux : List (String × V) → String → Option (List (String × V))
  | [], _ => none
  | item :: rest, key =>
    if item.1 == key then some rest
    else
      match removeFromStashAux rest key with
      | some l => some (item :: l)
      | none => none

/-- `removeFromStash(key)` (HybridHashTable.cpp lines 281-291). -/
def removeFromStash (st : HybridHashTable V) (key : String) : HybridHashTable V × Bool :=
  match removeFromStashAux st.stash_ key with
  | some l => ({ st with stash_ := l, numElements_ := decW64 st.numElements_ }, true)
  | none => (st, false)

/-- Cuckoo lookup, second table leg (HybridHashTable.cpp lines 172-173). -/
def cuckooSearch2 (st : HybridHashTable V) (key : String) : Option V :=
  match st.table2_.getD (hash2 st key) none with
  | some p => if p.1 == key && !(p.1 == TOMBSTONE) then some p.2 else searchStash st key
  | none => searchStash st key

/-- Cuckoo branch of `searchInternal` (HybridHashTable.cpp lines 169-173). -/
def cuckooSearch (st : HybridHashTable V) (key : String) : Option V :=
  match st.table_.getD (hash1 st key) none with
  | some p => if p.1 == key && !(p.1 == TOMBSTONE) then some p.2 else cuckooSearch2 st key
  | none => cuckooSearch2 st key

/-- Hopscotch branch of `searchInternal` (HybridHashTable.cpp lines 174-186):
scan the anchor's bitmap bits `0..31` (the loop also stops once
`start + i ≥ end`; since the bound is monotone in `i`, stopping and skipping
coincide). -/
def hopscotchSearch (st : HybridHashTable V) (key : String) : Option V :=
  let baseIndex := hash st key
  let s := getNeighborhoodStart st baseIndex
  let e := getNeighborhoodEnd st baseIndex
  let bm := st.hopInfo_.getD baseIndex 0
  match scanFrom (fun i =>
      if decide (s + i < e) && bm.testBit i then
        match st.table_.getD (s + i) none with
        | some p => if p.1 == key && !(p.1 == TOMBSTONE) then some p.2 else none
        | none => none
      else none) 0 HOP_RANGE with
  | some w => some w
  | none => searchStash st key

/-- Robin Hood probe scan used by `searchInternal` (HybridHashTable.cpp
lines 187-195).  `some (some w)` = hit, `some none` = stopped at an empty
slot (`break`), `none` = probe budget exhausted; the latter two fall through
to the stash. -/
def robinHoodSearchScan (st : HybridHashTable V) (key : String) : Option (Option V) :=
  let index := hash st key
  scanFrom (fun probe =>
      let currentIndex := (index + probe) % st.capacity_
      match st.table_.getD currentIndex none with
      | none => some none
      | some p => if p.1 == key && !(p.1 == TOMBSTONE) then some (some p.2) else none)
    0 MAX_PROBE_DISTANCE

/-- Robin Hood branch of `searchInternal`. -/
def robinHoodSearch (st : HybridHashTable V) (key : String) : Option V :=
  match robinHoodSearchScan st key with
  | some (some w) => some w
  | _ => searchStash st key

/-- `searchInternal(key)` (HybridHashTable.cpp lines 166-198). -/
def searchInternal (st : HybridHashTable V) (key : String) : Option V :=
  match st.currentMode_ with
  | HashMode.Cuckoo => cuckooSearch st key
  | HashMode.Hopscotch => hopscotchSearch st key
  | HashMode.RobinHood => robinHoodSearch st key

/-- `search(key)` (HybridHashTable.cpp lines 160-164): shared-lock acquisition
elided, then `searchInternal`. -/
def search (st : HybridHashTable V) (key : String) : Option V :=
  searchInternal st key

/-- `displace(index)` (HybridHashTable.cpp lines 330-351): scan up to
`MAX_DISPLACEMENTS` slots past the index; relocate the first occupied,
non-tombstoned entry that sits inside its own neighborhood into an empty slot
of that neighborhood.  `d` is the current offset, the second argument the
remaining fuel. -/
def displaceAux (st : HybridHashTable V) (index : Nat) : Nat → Nat → HybridHashTable V × Bool
  | _, 0 => (st, false)
  | d, fuel + 1 =>
    let checkIndex := (index + d) % st.capacity_
    match st.table_.getD checkIndex none with
    | some p =>
      if p.1 == TOMBSTONE then displaceAux st index (d + 1) fuel
      else
        let targetBase := hash st p.1
        let targetStart := getNeighborhoodStart st targetBase
        let targetEnd := getNeighborhoodEnd st targetBase
        if targetStart ≤ checkIndex ∧ checkIndex < targetEnd then
          let emptyIndex := findEmptySlot st targetStart targetEnd
          if emptyIndex ≠ st.capacity_ then
            let st1 := { st with
              table_ := (st.table_.set emptyIndex (some p)).set checkIndex none }
            let st2 := updateHopInfo st1 targetBase checkIndex false
            (updateHopInfo st2 targetBase emptyIndex true, true)
          else displaceAux st index (d + 1) fuel
        else displaceAux st index (d + 1) fuel
    | none => displaceAux st index (d + 1) fuel

/-- `displace(index)` with `d = 1..MAX_DISPLACEMENTS`. -/
def displace (st : HybridHashTable V) (index : Nat) : HybridHashTable V × Bool :=
  displaceAux st index 1 MAX_DISPLACEMENTS

/-- The Hopscotch arm of `insert` (HybridHashTable.cpp lines 29-50). -/
def hopscotchInsert (st : HybridHashTable V) (key : String) (value : V) :
    HybridHashTable V × Bool :=
  let baseIndex := hash st key
  let s := getNeighborhoodStart st baseIndex
  let e := getNeighborhoodEnd st baseIndex
  let emptyIndex := findEmptySlot st s e
  if emptyIndex ≠ st.capacity_ then
    let st1 := { st with table_ := st.table_.set emptyIndex (some (key, value)) }
    let st2 := updateHopInfo st1 baseIndex emptyIndex true
    ({ st2 with numElements_ := w64 (st2.numElements_ + 1) }, true)
  else
    match displace st baseIndex with
    | (st1, true) =>
      let newEmptyIndex := findEmptySlot st1 s e
      if newEmptyIndex ≠ st1.capacity_ then
        let st2 := { st1 with table_ := st1.table_.set newEmptyIndex (some (key, value)) }
        let st3 := updateHopInfo st2 baseIndex newEmptyIndex true
        ({ st3 with numElements_ := w64 (st3.numElements_ + 1) }, true)
      else (st1, false)
    | (st1, false) =>
      ({ st1 with totalCollisions_ := w64 (st1.totalCollisions_ + 1) }, false)

/-- The Robin Hood arm of `insert` (HybridHashTable.cpp lines 51-74).
Arguments: carried item, its running distance, the probe counter, fuel
(`MAX_PROBE_DISTANCE - probe`), state. -/
def robinHoodAux (idealIndex : Nat) :
    (String × V) → Nat → Nat → Nat → HybridHashTable V → HybridHashTable V × Bool
  | _, _, _, 0, st => (st, false)
  | item, curDist, probe, fuel + 1, st =>
    let st0 := { st with totalProbes_ := w64 (st.totalProbes_ + 1) }
    let currentIndex := (idealIndex + probe) % st0.capacity_
    match st0.table_.getD currentIndex none with
    | none =>
      ({ st0 with table_ := st0.table_.set currentIndex (some item),
                  probeDistances_ := st0.probeDistances_.set currentIndex curDist,
                  numElements_ := w64 (st0.numElements_ + 1) }, true)
    | some resident =>
      if resident.1 == TOMBSTONE then
        ({ st0 with table_ := st0.table_.set currentIndex (some item),
                    probeDistances_ := st0.probeDistances_.set currentIndex curDist,
                    numElements_ := w64 (st0.numElements_ + 1) }, true)
      else
        let existingDistance := st0.probeDistances_.getD currentIndex 0
        if curDist > existingDistance then
          let st1 := { st0 with table_ := st0.table_.set currentIndex (some item),
                                probeDistances_ := st0.probeDistances_.set currentIndex curDist }
          robinHoodAux idealIndex resident (existingDistance + 1) (probe + 1) fuel st1
        else
          let st1 := { st0 with totalCollisions_ := w64 (st0.totalCollisions_ + 1) }
          robinHoodAux idealIndex item (curDist + 1) (probe + 1) fuel st1

/-- Robin Hood insert entry point: probes start at the ideal index with
distance 0. -/
def robinHoodInsert (st : HybridHashTable V) (key : String) (value : V) :
    HybridHashTable V × Bool :=
  robinHoodAux (hash st key) (key, value) 0 0 MAX_PROBE_DISTANCE st

/-- The Cuckoo arm of `insert` (HybridHashTable.cpp lines 75-99): alternating
eviction chain, `while (evictions < MAX_EVICTIONS)`.  Every recursive step
performs two swaps (`evictions += 2`), so `MAX_EVICTIONS + 1` fuel is never
exhausted before the eviction budget is. -/
def cuckooAux : Nat → Nat → (String × V) → HybridHashTable V → HybridHashTable V × Bool
  | 0, _, _, st => (st, false)
  | fuel + 1, evictions, item, st =>
    if evictions < MAX_EVICTIONS then
      let idx1 := hash1 st item.1
      match st.table_.getD idx1 none with
      | none =>
        ({ st with table_ := st.table_.set idx1 (some item),
                   numElements_ := w64 (st.numElements_ + 1) }, true)
      | some r1 =>
        if r1.1 == TOMBSTONE then
          ({ st with table_ := st.table_.set idx1 (some item),
                     numElements_ := w64 (st.numElements_ + 1) }, true)
        else
          let st1 := { st with table_ := st.table_.set idx1 (some item) }
          let idx2 := hash2 st1 r1.1
          match st1.table2_.getD idx2 none with
          | none =>
            ({ st1 with table2_ := st1.table2_.set idx2 (some r1),
                        numElements_ := w64 (st1.numElements_ + 1) }, true)
          | some r2 =>
            if r2.1 == TOMBSTONE then
              ({ st1 with table2_ := st1.table2_.set idx2 (some r1),
                          numElements_ := w64 (st1.numElements_ + 1) }, true)
            else
              let st2 := { st1 with table2_ := st1.table2_.set idx2 (some r1),
                                    totalCollisions_ := w64 (st1.totalCollisions_ + 1) }
              cuckooAux fuel (evictions + 2) r2 st2
    else (st, false)

/-- Cuckoo insert entry point. -/
def cuckooInsert (st : HybridHashTable V) (key : String) (value : V) :
    HybridHashTable V × Bool :=
  cuckooAux (MAX_EVICTIONS + 1) 0 (key, value) st

/-- The mode dispatch of `insert` (HybridHashTable.cpp lines 29, 51, 75):
the `if / else if / else if` chain on `currentMode_`. -/
def modeDispatch (st : HybridHashTable V) (key : String) (value : V) :
    HybridHashTable V × Bool :=
  match st.currentMode_ with
  | HashMode.Hopscotch => hopscotchInsert st key value
  | HashMode.RobinHood => robinHoodInsert st key value
  | HashMode.Cuckoo => cuckooInsert st key value

/-- The tail of `insert` (HybridHashTable.cpp lines 101-103):
`if (!success) success = insertIntoStash(key, value);`. -/
def insertFinish (res : HybridHashTable V × Bool) (key : String) (value : V) :
    HybridHashTable V × Bool :=
  if res.2 then res else insertIntoStash res.1 key value

/-- `insert(key, value)` (HybridHashTable.cpp lines 22-109): duplicate check,
metrics bump, mode dispatch, stash fallback.  The trailing load-factor
computation feeds only the commented-out `switchModeIfNeeded` call and is
omitted. -/
def insert (st : HybridHashTable V) (key : String) (value : V) :
    HybridHashTable V × Bool :=
  if (searchInternal st key).isSome then (st, false)
  else
    insertFinish
      (modeDispatch { st with totalInsertions_ := w64 (st.totalInsertions_ + 1) }
        key value) key value

/-- `backwardShift(startIndex)` (HybridHashTable.cpp lines 248-263): pull
nonzero-distance occupants back one slot until an empty/tombstoned slot or a
zero-distance occupant. -/
def backwardShiftAux (startIndex : Nat) :
    Nat → Nat → Nat → HybridHashTable V → HybridHashTable V
  | _, _, 0, st => st
  | currentIndex, probe, fuel + 1, st =>
    let nextIndex := (startIndex + probe) % st.capacity_
    match st.table_.getD nextIndex none with
    | none => st
    | some p =>
      if p.1 == TOMBSTONE then st
      else
        let nextIdeal := hash st p.1
        let nextDistance := getProbeDistance st nextIdeal nextIndex
        if nextDistance = 0 then st
        else
          let st1 := { st with
            table_ := (st.table_.set currentIndex (some p)).set nextIndex none,
            probeDistances_ :=
              (st.probeDistances_.set currentIndex (nextDistance - 1)).set nextIndex 0 }
          backwardShiftAux startIndex nextIndex (probe + 1) fuel st1

/-- `backwardShift(startIndex)`: probes `1 .. capacity_ - 1`. -/
def backwardShift (st : HybridHashTable V) (startIndex : Nat) : HybridHashTable V :=
  backwardShiftAux startIndex startIndex 1 (st.capacity_ - 1) st

/-- Cuckoo arm of `remove`, second-table leg (HybridHashTable.cpp
lines 121-126).  Note the source checks only `first == key`, without an
`isTombstone` guard. -/
def cuckooRemove2 [Inhabited V] (st : HybridHashTable V) (key : String) :
    HybridHashTable V × Bool :=
  let idx2 := hash2 st key
  match st.table2_.getD idx2 none with
  | some p =>
    if p.1 == key then
      ({ st with table2_ := st.table2_.set idx2 (some (TOMBSTONE, default)),
                 numElements_ := decW64 st.numElements_ }, true)
    else removeFromStash st key
  | none => removeFromStash st key

/-- `remove(key)` (HybridHashTable.cpp lines 111-158). -/
def remove [Inhabited V] (st : HybridHashTable V) (key : String) :
    HybridHashTable V × Bool :=
  match st.currentMode_ with
  | HashMode.Cuckoo =>
    let idx1 := hash1 st key
    match st.table_.getD idx1 none with
    | some p =>
      if p.1 == key then
        ({ st with table_ := st.table_.set idx1 (some (TOMBSTONE, default)),
                   numElements_ := decW64 st.numElements_ }, true)
      else cuckooRemove2 st key
    | none => cuckooRemove2 st key
  | HashMode.Hopscotch =>
    let baseIndex := hash st key
    let s := getNeighborhoodStart st baseIndex
    let e := getNeighborhoodEnd st baseIndex
    let bm := st.hopInfo_.getD baseIndex 0
    match scanFrom (fun i =>
        if decide (s + i < e) && bm.testBit i then
          match st.table_.getD (s + i) none with
          | some p => if p.1 == key then some (s + i) else none
          | none => none
        else none) 0 HOP_RANGE with
    | some checkIndex =>
      let st1 := { st with table_ := st.table_.set checkIndex (some (TOMBSTONE, default)) }
      let st2 := updateHopInfo st1 baseIndex checkIndex false
      ({ st2 with numElements_ := decW64 st2.numElements_ }, true)
    | none => removeFromStash st key
  | HashMode.RobinHood =>
    let index := hash st key
    match scanFrom (fun probe =>
        let currentIndex := (index + probe) % st.capacity_
        match st.table_.getD currentIndex none with
        | none => some none
        | some p =>
          if p.1 == key && !(p.1 == TOMBSTONE) then some (some currentIndex) else none)
      0 MAX_PROBE_DISTANCE with
    | some (some currentIndex) =>
      let st1 := { st with
        table_ := st.table_.set currentIndex (some (TOMBSTONE, default)),
        probeDistances_ := st.probeDistances_.set currentIndex 0,
        numElements_ := decW64 st.numElements_ }
      (backwardShift st1 currentIndex, true)
    | _ => removeFromStash st key

/-- `size()` (HybridHashTable.cpp lines 200-204). -/
def size (st : HybridHashTable V) : Nat := st.numElements_

/-- `loadFactor()` (HybridHashTable.cpp lines 206-210), modelled in `ℚ`. -/
def loadFactor (st : HybridHashTable V) : ℚ :=
  (st.numElements_ : ℚ) / ((st.capacity_ : ℚ) + (st.stash_.length : ℚ))

/-- `rehash()` (HybridHashTable.cpp lines 293-312): collect live entries from
the primary table (note: not `table2_`) and the stash, double the capacity,
reset all arrays, and re-insert through `insert`. -/
def rehash (st : HybridHashTable V) : HybridHashTable V :=
  let allElements :=
    (st.table_.filterMap (fun slot =>
      match slot with
      | some p => if !(p.1 == TOMBSTONE) then some p else none
      | none => none)) ++ st.stash_
  let cap2 := st.capacity_ * 2
  let stReset := { st with
    capacity_ := cap2,
    table_ := List.replicate cap2 (none : Option (String × V)),
    table2_ := List.replicate cap2 (none : Option (String × V)),
    hopInfo_ := List.replicate cap2 0,
    probeDistances_ := List.replicate cap2 0,
    stash_ := ([] : List (String × V)),
    numElements_ := 0 }
  allElements.foldl (fun s p => (insert s p.1 p.2).1) stReset

/-- `resize(newSize)` (HybridHashTable.cpp lines 212-217): overwrite
`capacity_` with the argument, then `rehash()` (which doubles it again). -/
def resize (st : HybridHashTable V) (newSize : Nat) : HybridHashTable V :=
  rehash { st with capacity_ := newSize }

/-- `setMode(mode)` (HybridHashTable.cpp lines 219-229): switch strategy and
clear every array, the stash and the element count.  The metrics counters are
not touched. -/
def setMode (st : HybridHashTable V) (mode : HashMode) : HybridHashTable V :=
  { st with
    currentMode_ := mode,
    table_ := List.replicate st.capacity_ (none : Option (String × V)),
    table2_ := List.replicate st.capacity_ (none : Option (String × V)),
    hopInfo_ := List.replicate st.capacity_ 0,
    probeDistances_ := List.replicate st.capacity_ 0,
    stash_ := ([] : List (String × V)),
    numElements_ := 0 }

/-- `switchModeIfNeeded(currentLoad)` (HybridHashTable.cpp lines 231-245):
threshold policy, then an unconditional reset of the three metrics counters. -/
def switchModeIfNeeded (st : HybridHashTable V) (currentLoad : ℚ) : HybridHashTable V :=
  let collRate := collisionRate st
  let st1 :=
    if currentLoad > HIGH_LOAD_THRESHOLD ∧ st.currentMode_ ≠ HashMode.RobinHood then
      setMode st HashMode.RobinHood
    else if collRate > HIGH_COLLISION_RATE ∧ st.currentMode_ ≠ HashMode.Cuckoo then
      setMode st HashMode.Cuckoo
    else if currentLoad < (1 : ℚ) / 2 ∧ st.currentMode_ ≠ HashMode.Hopscotch then
      setMode st HashMode.Hopscotch
    else st
  { st1 with totalInsertions_ := 0, totalCollisions_ := 0, totalProbes_ := 0 }

/-- The constructor (HybridHashTable.cpp lines 4-15): arrays sized to the
initial capacity, mode `Hopscotch`, hash members wired to `HashUtils` over the
external `stdHash` capability.  No validation of `initialSize` is performed. -/
def create (V : Type) (initialSize : Nat) (maxLoadFactor : ℚ) (stdHash : String → Nat) :
    HybridHashTable V :=
  { table_ := List.replicate initialSize (none : Option (String × V)),
    capacity_ := initialSize,
    numElements_ := 0,
    maxLoadFactor_ := maxLoadFactor,
    currentMode_ := HashMode.Hopscotch,
    table2_ := List.replicate initialSize (none : Option (String × V)),
    hash1_ := fun k => HashUtils.hash1 stdHash k,
    hash2_ := fun k => HashUtils.hash2 stdHash k,
    hash_ := fun k => HashUtils.hash stdHash k,
    hopInfo_ := List.replicate initialSize 0,
    probeDistances_ := List.replicate initialSize 0,
    stash_ := ([] : List (String × V)),
    totalInsertions_ := 0,
    totalCollisions_ := 0,
    totalProbes_ := 0 }

/-- Well-formedness: the backing arrays have length `capacity_` and the
capacity is positive (the constructor establishes this for positive
`initialSize`, and C++ array indexing / `% capacity_` is UB otherwise). -/
def WF (st : HybridHashTable V) : Prop :=
  st.table_.length = st.capacity_ ∧ st.table2_.length = st.capacity_ ∧
  st.hopInfo_.length = st.capacity_ ∧ st.probeDistances_.length = st.capacity_ ∧
  0 < st.capacity_

/-- The key of a slot, if occupied. -/
def slotKey (slot : Option (String × V)) : Option String :=
  match slot with
  | some p => some p.1
  | none => none

/-- No slot of the list carries the given key. -/
def tableNoKey (t : List (Option (String × V))) (key : String) : Prop :=
  ∀ slot ∈ t, slotKey slot ≠ some key

/-- The key is nowhere in the structure: no slot of either table carries it
and no stash entry does.  For a key other than `TOMBSTONE` this says exactly
that no live entry for the key exists. -/
def keyAbsent (st : HybridHashTable V) (key : String) : Prop :=
  tableNoKey st.table_ key ∧ tableNoKey st.table2_ key ∧ ∀ p ∈ st.stash_, p.1 ≠ key

/-- Positional version of key absence in one backing array: no index holds
an entry for the key. -/
def noKeyPos (t : List (Option (String × V))) (key : String) : Prop :=
  ∀ i, ∀ w : V, t.getD i none ≠ some (key, w)

/-- The array holds the pair `(key, value)` exactly at index `i0` and no
entry for `key` anywhere else. -/
def onlyKeyAt (t : List (Option (String × V))) (key : String) (value : V)
    (i0 : Nat) : Prop :=
  t.getD i0 none = some (key, value) ∧
  ∀ i, i ≠ i0 → ∀ w : V, t.getD i none ≠ some (key, w)

/-- The parts of the state a mode's placement loop never modifies: shape,
mode, hashing, and the stash. -/
def Frame (st st' : HybridHashTable V) : Prop :=
  st'.capacity_ = st.capacity_ ∧ st'.currentMode_ = st.currentMode_ ∧
  st'.hash_ = st.hash_ ∧ st'.hash1_ = st.hash1_ ∧ st'.hash2_ = st.hash2_ ∧
  st'.stash_ = st.stash_ ∧
  st'.table_.length = st.table_.length ∧ st'.table2_.length = st.table2_.length ∧
  st'.hopInfo_.length = st.hopInfo_.length ∧
  st'.probeDistances_.length = st.probeDistances_.length

end HybridHashTable

open HybridHashTable

/-- A stand-in for the opaque `std::hash<std::string>` capability in the
concrete scenarios below.  With capacity 1 every hash value reduces to
index 0 regardless of the function chosen. -/
def zeroHash : String → Nat := fun _ => 0

/-- Concrete scenario for C2 / C6 / C1 / C7 / C8: small fresh tables. -/
def cexCuckoo1 : HybridHashTable Nat :=
  setMode (create Nat 1 ((3 : ℚ) / 4) zeroHash) HashMode.Cuckoo

def cexCuckoo1a : HybridHashTable Nat := (insert cexCuckoo1 "a" 1).1

def cexCuckoo1ab : HybridHashTable Nat := (insert cexCuckoo1a "b" 2).1

def cexRobin1 : HybridHashTable Nat :=
  setMode (create Nat 1 ((3 : ℚ) / 4) zeroHash) HashMode.RobinHood

def cexRobin1a : HybridHashTable Nat := (insert cexRobin1 "a" 1).1

def cexFresh16 : HybridHashTable Nat := create Nat 16 ((3 : ℚ) / 4) zeroHash

def cexMetrics : HybridHashTable Nat :=
  { create Nat 4 ((3 : ℚ) / 4) zeroHash with
    totalInsertions_ := 3, totalCollisions_ := 5, totalProbes_ := 7 }

/-- Concrete scenario for C3: a capacity-1 Cuckoo table holding live entries
for `a` (primary) and `b` (secondary) whose stash is at `MAX_STASH_SIZE`, so
that the next colliding insert fails overall. -/
def cexFullStash : HybridHashTable Nat :=
  { table_ := [some ("a", 1)],
    capacity_ := 1,
    numElements_ := w64 (MAX_STASH_SIZE + 2),
    maxLoadFactor_ := (3 : ℚ) / 4,
    currentMode_ := HashMode.Cuckoo,
    table2_ := [some ("b", 2)],
    hash1_ := zeroHash, hash2_ := zeroHash, hash_ := zeroHash,
    hopInfo_ := [0], probeDistances_ := [0],
    stash_ := List.replicate MAX_STASH_SIZE ("z", 0),
    totalInsertions_ := 0, totalCollisions_ := 0, totalProbes_ := 0 }

/-- `cexFullStash` after the duplicate check and metrics bump of `insert`. -/
def cexFullStashBumped : HybridHashTable Nat :=
  { cexFullStash with totalInsertions_ := 1 }

/-- The state the Cuckoo eviction loop of `insert cexFullStash "c" 3` ends in:
the 500-eviction budget is exhausted, `c` has been swapped into the primary
table, `a` into the secondary table, and `b` is the homeless carried item. -/
def cexFullStashLooped : HybridHashTable Nat :=
  { cexFullStashBumped with
    table_ := [some ("c", 3)],
    table2_ := [some ("a", 1)],
    totalCollisions_ := 250 }

/-- A freshly created table switched to a chosen mode: the starting point of
the concrete scenarios of the spec. -/
def freshTable (V : Type) (cap : Nat) (q : ℚ) (stdHash : String → Nat)
    (m : HashMode) : HybridHashTable V :=
  setMode (create V cap q stdHash) m

set_option maxRecDepth 10000

/-! ### Generic scan and list lemmas -/

theorem scanFrom_eq_none {α : Type} (f : Nat → Option α) :
    ∀ fuel i, (∀ j, i ≤ j → j < i + fuel → f j = none) → scanFrom f i fuel = none := by
  intro fuel
  induction fuel with
  | zero => intro i _; rfl
  | succ n ih =>
    intro i h
    have h0 : f i = none := h i (Nat.le_refl i) (by omega)
    simp only [scanFrom, h0]
    exact ih (i + 1) (fun j hj1 hj2 => h j (by omega) (by omega))

theorem scanFrom_found {α : Type} (f : Nat → Option α) (a : α) :
    ∀ fuel i p, i ≤ p → p < i + fuel → f p = some a →
      (∀ j, i ≤ j → j < p → f j = none ∨ f j = some a) → scanFrom f i fuel = some a := by
  intro fuel
  induction fuel with
  | zero => intro i p h1 h2; omega
  | succ n ih =>
    intro i p h1 h2 hp hbefore
    by_cases hip : i = p
    · subst hip; simp only [scanFrom, hp]
    · rcases hbefore i (Nat.le_refl i) (by omega) with h | h
      · simp only [scanFrom, h]
        exact ih (i + 1) p (by omega) (by omega) hp
          (fun j hj1 hj2 => hbefore j (by omega) hj2)
      · simp only [scanFrom, h]

theorem scanFrom_some {α : Type} (f : Nat → Option α) (a : α) :
    ∀ fuel i, scanFrom f i fuel = some a → ∃ j, i ≤ j ∧ j < i + fuel ∧ f j = some a := by
  intro fuel
  induction fuel with
  | zero => intro i h; simp [scanFrom] at h
  | succ n ih =>
    intro i h
    simp only [scanFrom] at h
    cases hfi : f i with
    | some b =>
      rw [hfi] at h
      simp only at h
      exact ⟨i, Nat.le_refl i, by omega, hfi.trans h⟩
    | none =>
      rw [hfi] at h
      simp only at h
      obtain ⟨j, hj1, hj2, hj3⟩ := ih (i + 1) h
      exact ⟨j, by omega, by omega, hj3⟩

theorem scanFrom_step_some {α : Type} (f : Nat → Option α) (a : α) (i fuel : Nat)
    (h : f i = some a) : scanFrom f i (fuel + 1) = some a := by
  simp only [scanFrom, h]

theorem getD_set_self {α : Type} (l : List α) (i : Nat) (x d : α) (h : i < l.length) :
    (l.set i x).getD i d = x := by
  rw [List.getD_eq_getElem?_getD, List.getElem?_set_self h]; rfl

theorem getD_set_ne {α : Type} (l : List α) (i j : Nat) (x d : α) (h : i ≠ j) :
    (l.set i x).getD j d = l.getD j d := by
  rw [List.getD_eq_getElem?_getD, List.getElem?_set_ne h, ← List.getD_eq_getElem?_getD]

theorem mem_of_getD_eq_some {α : Type} (l : List (Option α)) (i : Nat) (p : α)
    (h : l.getD i none = some p) : some p ∈ l := by
  rw [List.getD_eq_getElem?_getD] at h
  cases hg : l[i]? with
  | none => rw [hg] at h; simp at h
  | some x =>
    rw [hg] at h
    simp only [Option.getD_some] at h
    subst h
    rw [List.getElem?_eq_some] at hg
    obtain ⟨hl, he⟩ := hg
    exact he ▸ List.getElem_mem hl

theorem getD_replicate {α : Type} (n i : Nat) (a : α) :
    (List.replicate n a).getD i a = a := by
  rw [List.getD_eq_getElem?_getD, List.getElem?_replicate]
  split <;> rfl

theorem getD_replicate_none {α : Type} (n i : Nat) :
    (List.replicate n (none : Option α)).getD i none = none :=
  getD_replicate n i none

/-! ### Stash lookup lemmas -/

theorem scanFrom_const_none {α : Type} :
    ∀ fuel i, scanFrom (fun _ => (none : Option α)) i fuel = none := by
  intro fuel
  induction fuel with
  | zero => intro i; rfl
  | succ n ih => intro i; simp only [scanFrom]; exact ih (i + 1)

theorem scanFrom_const_some {α : Type} (a : α) (fuel i : Nat) (h : 0 < fuel) :
    scanFrom (fun _ => some a) i fuel = some a := by
  cases fuel with
  | zero => omega
  | succ n => simp only [scanFrom]

theorem findSome?_key_none {V : Type} (key : String) :
    ∀ l : List (String × V), (∀ p ∈ l, p.1 ≠ key) →
      l.findSome? (fun item => if item.1 == key then some item.2 else none) = none := by
  intro l
  induction l with
  | nil => intro _; rfl
  | cons p rest ih =>
    intro h
    have hp : (p.1 == key) = false := by
      simp [h p (List.mem_cons_self p rest)]
    rw [List.findSome?_cons]
    simp only [hp, Bool.false_eq_true, if_false]
    exact ih (fun q hq => h q (List.mem_cons_of_mem p hq))

theorem findSome?_key_append {V : Type} (key : String) (value : V) :
    ∀ l : List (String × V), (∀ p ∈ l, p.1 ≠ key) →
      (l ++ [(key, value)]).findSome?
        (fun item => if item.1 == key then some item.2 else none) = some value := by
  intro l
  induction l with
  | nil => intro _; simp [List.findSome?_cons]
  | cons p rest ih =>
    intro h
    have hp : (p.1 == key) = false := by
      simp [h p (List.mem_cons_self p rest)]
    rw [List.cons_append, List.findSome?_cons]
    simp only [hp, Bool.false_eq_true, if_false]
    exact ih (fun q hq => h q (List.mem_cons_of_mem p hq))

theorem searchStash_eq_none {V : Type} (st : HybridHashTable V) (key : String)
    (h : ∀ p ∈ st.stash_, p.1 ≠ key) : searchStash st key = none :=
  findSome?_key_none key st.stash_ h

/-! ### Lookup on a freshly cleared table (`setMode`) -/

theorem searchInternal_setMode {V : Type} (st : HybridHashTable V) (m : HashMode)
    (key : String) : searchInternal (setMode st m) key = none := by
  have hstash : searchStash (setMode st m) key = none := rfl
  cases m with
  | Cuckoo =>
    show cuckooSearch (setMode st HashMode.Cuckoo) key = none
    unfold cuckooSearch cuckooSearch2
    rw [show (setMode st HashMode.Cuckoo).table_ =
        List.replicate st.capacity_ none from rfl,
      show (setMode st HashMode.Cuckoo).table2_ =
        List.replicate st.capacity_ none from rfl,
      getD_replicate_none, getD_replicate_none]
    exact hstash
  | Hopscotch =>
    show hopscotchSearch (setMode st HashMode.Hopscotch) key = none
    simp only [hopscotchSearch,
      show (setMode st HashMode.Hopscotch).hopInfo_ =
        List.replicate st.capacity_ 0 from rfl,
      getD_replicate, Nat.zero_testBit, Bool.and_false, Bool.false_eq_true, if_false,
      scanFrom_const_none]
    exact hstash
  | RobinHood =>
    show robinHoodSearch (setMode st HashMode.RobinHood) key = none
    simp only [robinHoodSearch, robinHoodSearchScan,
      show (setMode st HashMode.RobinHood).table_ =
        List.replicate st.capacity_ none from rfl,
      getD_replicate_none]
    rw [scanFrom_const_some (none : Option V) MAX_PROBE_DISTANCE 0 (by decide)]
    exact hstash

/-- Claim C5: for every table state, every mode and every key, after
`set_mode(m)` the table reports `size() = 0` and `search(k)` is empty for
every key: `setMode` clears all indexed storage and the stash instead of
migrating entries. -/
theorem C5_setMode_clears {V : Type} (st : HybridHashTable V) (m : HashMode)
    (key : String) :
    size (setMode st m) = 0 ∧ search (setMode st m) key = none :=
  ⟨rfl, searchInternal_setMode st m key⟩

/-- Claim C7 (amended): every call to `switchModeIfNeeded` resets the three
metrics counters to zero, whether or not the mode actually changed; a direct
`setMode` call does not reset them (see the counterexample). -/
theorem C7_switchModeIfNeeded_resets {V : Type} (st : HybridHashTable V)
    (currentLoad : ℚ) :
    (switchModeIfNeeded st currentLoad).totalInsertions_ = 0 ∧
    (switchModeIfNeeded st currentLoad).totalCollisions_ = 0 ∧
    (switchModeIfNeeded st currentLoad).totalProbes_ = 0 :=
  ⟨rfl, rfl, rfl⟩

/-- Counterexample to claim C7 as stated: `setMode` itself does not reset the
metrics counters.  On a concrete state with counters 3/5/7, switching the mode
leaves all three untouched. -/
theorem C7_counterexample :
    (setMode cexMetrics HashMode.RobinHood).totalInsertions_ = 3 ∧
    (setMode cexMetrics HashMode.RobinHood).totalCollisions_ = 5 ∧
    (setMode cexMetrics HashMode.RobinHood).totalProbes_ = 7 ∧
    (3 : Nat) ≠ 0 :=
  ⟨rfl, rfl, rfl, by decide⟩

/-- Counterexample to claim C8 as stated: `resize` first overwrites the
capacity with its argument and only then doubles it during `rehash`, so
`resize(1)` on a capacity-16 table shrinks the capacity to 2. -/
theorem C8_counterexample :
    (resize cexFresh16 1).capacity_ = 2 ∧ cexFresh16.capacity_ = 16 ∧ (2 : Nat) < 16 := by
  refine ⟨by decide, rfl, by decide⟩

/-- Claim C9 evaluated at the failing input: the constructor performs no
validation, so a zero initial capacity is accepted and yields a fully built
(degenerate) table with capacity 0 and empty backing arrays, instead of the
fatal precondition rejection the claim requires. -/
theorem C9_zero_capacity_accepted :
    (create Nat 0 ((3 : ℚ) / 4) zeroHash).capacity_ = 0 ∧
    (create Nat 0 ((3 : ℚ) / 4) zeroHash).table_ = [] ∧
    (create Nat 0 ((3 : ℚ) / 4) zeroHash).table2_ = [] ∧
    size (create Nat 0 ((3 : ℚ) / 4) zeroHash) = 0 :=
  ⟨rfl, rfl, rfl, rfl⟩

/-! ### Frame lemmas: what the placement loops never change -/

theorem frame_refl {V : Type} (st : HybridHashTable V) : Frame st st :=
  ⟨rfl, rfl, rfl, rfl, rfl, rfl, rfl, rfl, rfl, rfl⟩

theorem frame_trans {V : Type} {a b c : HybridHashTable V}
    (h1 : Frame a b) (h2 : Frame b c) : Frame a c := by
  obtain ⟨e1, e2, e3, e4, e5, e6, e7, e8, e9, e10⟩ := h1
  obtain ⟨f1, f2, f3, f4, f5, f6, f7, f8, f9, f10⟩ := h2
  exact ⟨f1.trans e1, f2.trans e2, f3.trans e3, f4.trans e4, f5.trans e5, f6.trans e6,
    f7.trans e7, f8.trans e8, f9.trans e9, f10.trans e10⟩

theorem frame_updateHopInfo {V : Type} (st : HybridHashTable V) (b t : Nat) (add : Bool) :
    Frame st (updateHopInfo st b t add) := by
  refine ⟨rfl, rfl, rfl, rfl, rfl, rfl, rfl, rfl, ?_, rfl⟩
  simp [updateHopInfo, List.length_set]

theorem displaceAux_spec {V : Type} (st : HybridHashTable V) (index : Nat) :
    ∀ fuel d,
      Frame st (displaceAux st index d fuel).1 ∧
      (displaceAux st index d fuel).1.numElements_ = st.numElements_ ∧
      ∀ key, tableNoKey st.table_ key →
        tableNoKey (displaceAux st index d fuel).1.table_ key := by
  intro fuel
  induction fuel with
  | zero => intro d; exact ⟨frame_refl st, rfl, fun _ h => h⟩
  | succ n ih =>
    intro d
    simp only [displaceAux]
    split
    · rename_i p hslot
      split
      · exact ih (d + 1)
      · split
        · split
          · rename_i hkey hin hempty
            refine ⟨?_, rfl, ?_⟩
            · refine frame_trans ?_ (frame_trans (frame_updateHopInfo _ _ _ _)
                (frame_updateHopInfo _ _ _ _))
              exact ⟨rfl, rfl, rfl, rfl, rfl, rfl, by simp [List.length_set], rfl, rfl, rfl⟩
            · intro key h slot hmem
              simp only [updateHopInfo] at hmem
              rcases List.mem_or_eq_of_mem_set hmem with hmem1 | hnone
              · rcases List.mem_or_eq_of_mem_set hmem1 with hmem2 | hp
                · exact h slot hmem2
                · subst hp
                  exact h (some p) (mem_of_getD_eq_some _ _ _ hslot)
              · subst hnone; simp [slotKey]
          · exact ih (d + 1)
        · exact ih (d + 1)
    · exact ih (d + 1)

theorem displace_spec {V : Type} (st : HybridHashTable V) (index : Nat) :
    Frame st (displace st index).1 ∧
    (displace st index).1.numElements_ = st.numElements_ ∧
    ∀ key, tableNoKey st.table_ key → tableNoKey (displace st index).1.table_ key :=
  displaceAux_spec st index MAX_DISPLACEMENTS 1

theorem hopscotchInsert_spec {V : Type} (st : HybridHashTable V) (key : String) (value : V) :
    ∀ stR flag, hopscotchInsert st key value = (stR, flag) →
      Frame st stR ∧
      stR.numElements_ =
        (if flag then w64 (st.numElements_ + 1) else st.numElements_) := by
  intro stR flag h
  simp only [hopscotchInsert] at h
  split at h
  · cases h
    refine ⟨⟨rfl, rfl, rfl, rfl, rfl, rfl, ?_, rfl, ?_, rfl⟩, rfl⟩
    · simp [updateHopInfo, List.length_set]
    · simp [updateHopInfo, List.length_set]
  · split at h
    · rename_i st1 heq
      have hd := displace_spec st (hash st key)
      rw [heq] at hd
      obtain ⟨⟨d1, d2, d3, d4, d5, d6, d7, d8, d9, d10⟩, dnum, _⟩ := hd
      split at h
      · cases h
        refine ⟨⟨d1, d2, d3, d4, d5, d6, ?_, d8, ?_, d10⟩, ?_⟩
        · simp only [updateHopInfo, List.length_set]
          exact d7
        · simp only [updateHopInfo, List.length_set]
          exact d9
        · simp only [updateHopInfo, if_true]
          rw [dnum]
      · cases h
        exact ⟨⟨d1, d2, d3, d4, d5, d6, d7, d8, d9, d10⟩, by simpa using dnum⟩
    · rename_i st1 heq
      have hd := displace_spec st (hash st key)
      rw [heq] at hd
      obtain ⟨⟨d1, d2, d3, d4, d5, d6, d7, d8, d9, d10⟩, dnum, _⟩ := hd
      cases h
      exact ⟨⟨d1, d2, d3, d4, d5, d6, d7, d8, d9, d10⟩, by simpa using dnum⟩

theorem robinHoodAux_spec {V : Type} (ideal : Nat) :
    ∀ fuel item curDist probe (st : HybridHashTable V) stR flag,
      robinHoodAux ideal item curDist probe fuel st = (stR, flag) →
      Frame st stR ∧
      stR.numElements_ =
        (if flag then w64 (st.numElements_ + 1) else st.numElements_) := by
  intro fuel
  induction fuel with
  | zero =>
    intro item curDist probe st stR flag h
    simp only [robinHoodAux] at h
    cases h
    exact ⟨frame_refl st, by simp⟩
  | succ n ih =>
    intro item curDist probe st stR flag h
    simp only [robinHoodAux] at h
    split at h
    · cases h
      exact ⟨⟨rfl, rfl, rfl, rfl, rfl, rfl, by simp [List.length_set], rfl, rfl,
        by simp [List.length_set]⟩, rfl⟩
    · split at h
      · cases h
        exact ⟨⟨rfl, rfl, rfl, rfl, rfl, rfl, by simp [List.length_set], rfl, rfl,
          by simp [List.length_set]⟩, rfl⟩
      · split at h
        · have hrec := ih _ _ _ _ _ _ h
          refine ⟨?_, hrec.2⟩
          refine frame_trans ?_ hrec.1
          exact ⟨rfl, rfl, rfl, rfl, rfl, rfl, by simp [List.length_set],
            rfl, rfl, by simp [List.length_set]⟩
        · have hrec := ih _ _ _ _ _ _ h
          exact ⟨hrec.1, hrec.2⟩

theorem cuckooAux_spec {V : Type} :
    ∀ fuel evictions item (st : HybridHashTable V) stR flag,
      cuckooAux fuel evictions item st = (stR, flag) →
      Frame st stR ∧
      stR.numElements_ =
        (if flag then w64 (st.numElements_ + 1) else st.numElements_) := by
  intro fuel
  induction fuel with
  | zero =>
    intro evictions item st stR flag h
    simp only [cuckooAux] at h
    cases h
    exact ⟨frame_refl st, by simp⟩
  | succ n ih =>
    intro evictions item st stR flag h
    simp only [cuckooAux] at h
    split at h
    · split at h
      · cases h
        exact ⟨⟨rfl, rfl, rfl, rfl, rfl, rfl, by simp [List.length_set], rfl, rfl, rfl⟩, rfl⟩
      · split at h
        · cases h
          exact ⟨⟨rfl, rfl, rfl, rfl, rfl, rfl, by simp [List.length_set], rfl, rfl, rfl⟩, rfl⟩
        · split at h
          · cases h
            exact ⟨⟨rfl, rfl, rfl, rfl, rfl, rfl, by simp [List.length_set],
              by simp [List.length_set], rfl, rfl⟩, rfl⟩
          · split at h
            · cases h
              exact ⟨⟨rfl, rfl, rfl, rfl, rfl, rfl, by simp [List.length_set],
                by simp [List.length_set], rfl, rfl⟩, rfl⟩
            · have hrec := ih _ _ _ _ _ h
              refine ⟨?_, hrec.2⟩
              refine frame_trans ?_ hrec.1
              exact ⟨rfl, rfl, rfl, rfl, rfl, rfl, by simp [List.length_set],
                by simp [List.length_set], rfl, rfl⟩
    · cases h
      exact ⟨frame_refl st, by simp⟩

theorem insertIntoStash_spec {V : Type} (st : HybridHashTable V) (key : String) (value : V) :
    ∀ stR flag, insertIntoStash st key value = (stR, flag) →
      stR.capacity_ = st.capacity_ ∧ stR.currentMode_ = st.currentMode_ ∧
      stR.table_ = st.table_ ∧ stR.table2_ = st.table2_ ∧
      stR.hopInfo_ = st.hopInfo_ ∧ stR.probeDistances_ = st.probeDistances_ ∧
      stR.hash_ = st.hash_ ∧ stR.hash1_ = st.hash1_ ∧ stR.hash2_ = st.hash2_ ∧
      stR.numElements_ = (if flag then w64 (st.numElements_ + 1) else st.numElements_) ∧
      stR.stash_ = (if flag then st.stash_ ++ [(key, value)] else st.stash_) := by
  intro stR flag h
  unfold insertIntoStash at h
  split at h <;> cases h <;> simp

theorem ne_w64_succ (n : Nat) : n ≠ w64 (n + 1) := by
  unfold w64
  omega

theorem modeDispatch_spec {V : Type} (st : HybridHashTable V) (key : String) (value : V) :
    ∀ stM flagM, modeDispatch st key value = (stM, flagM) →
      Frame st stM ∧
      stM.numElements_ =
        (if flagM then w64 (st.numElements_ + 1) else st.numElements_) := by
  intro stM flagM h
  unfold modeDispatch at h
  split at h
  · exact hopscotchInsert_spec st key value stM flagM h
  · exact robinHoodAux_spec _ _ _ _ _ _ _ _ h
  · exact cuckooAux_spec _ _ _ _ _ _ h

theorem insert_spec {V : Type} (st : HybridHashTable V) (key : String) (value : V) :
    ∀ stR flag, insert st key value = (stR, flag) →
      stR.capacity_ = st.capacity_ ∧
      stR.numElements_ =
        (if flag then w64 (st.numElements_ + 1) else st.numElements_) ∧
      ((searchInternal st key).isSome = true → stR = st ∧ flag = false) := by
  intro stR flag h
  simp only [HybridHashTable.insert] at h
  split at h
  · cases h
    exact ⟨rfl, by simp, fun _ => ⟨rfl, rfl⟩⟩
  · rename_i hnone
    rcases hres : modeDispatch
        { st with totalInsertions_ := w64 (st.totalInsertions_ + 1) } key value
      with ⟨stM, flagM⟩
    have hM := modeDispatch_spec _ key value stM flagM hres
    rw [hres] at h
    unfold insertFinish at h
    cases flagM with
    | true =>
      simp only [if_true] at h
      cases h
      refine ⟨hM.1.1, by simpa using hM.2, fun hs => absurd hs (by simpa using hnone)⟩
    | false =>
      simp only [Bool.false_eq_true, if_false] at h
      have hstash := insertIntoStash_spec stM key value _ _ h
      refine ⟨hstash.1.trans hM.1.1, ?_, fun hs => absurd hs (by simpa using hnone)⟩
      have hMnum : stM.numElements_ = st.numElements_ := by simpa using hM.2
      rcases flag with _ | _
      · simp only [Bool.false_eq_true, if_false]
        rw [hstash.2.2.2.2.2.2.2.2.2.1]
        simpa using hMnum
      · simp only [if_true]
        rw [hstash.2.2.2.2.2.2.2.2.2.1]
        simp only [if_true]
        rw [hMnum]


theorem insert_capacity {V : Type} (st : HybridHashTable V) (key : String) (value : V) :
    (insert st key value).1.capacity_ = st.capacity_ := by
  rcases hres : insert st key value with ⟨stR, flag⟩
  exact (insert_spec st key value stR flag hres).1

theorem foldl_insert_capacity {V : Type} :
    ∀ (l : List (String × V)) (s : HybridHashTable V),
      (l.foldl (fun s p => (insert s p.1 p.2).1) s).capacity_ = s.capacity_ := by
  intro l
  induction l with
  | nil => intro s; rfl
  | cons p rest ih =>
    intro s
    rw [List.foldl_cons, ih ((insert s p.1 p.2).1), insert_capacity]

/-- Claim C8 (amended): for every table state and every argument,
`resize(new_capacity)` leaves the table with capacity exactly
`new_capacity * 2`: `resize` overwrites the capacity with its argument and
`rehash` doubles that, so the capacity can decrease whenever
`2 * new_capacity` is below the old capacity (see the counterexample). -/
theorem C8_resize_capacity {V : Type} (st : HybridHashTable V) (newSize : Nat) :
    (resize st newSize).capacity_ = newSize * 2 := by
  unfold resize rehash
  rw [foldl_insert_capacity]

/-- Claim C4: `insert(key, value)` returns `true` exactly when the key was
not already present (as observed by `search`) and the element was actually
placed, i.e. the live-element count was incremented; a duplicate insert is a
complete no-op returning `false`. -/
theorem C4_insert_protocol {V : Type} (st : HybridHashTable V) (key : String) (value : V) :
    (search st key ≠ none → insert st key value = (st, false)) ∧
    ((insert st key value).2 = true ↔
      search st key = none ∧
      (insert st key value).1.numElements_ = w64 (st.numElements_ + 1)) := by
  rcases hres : insert st key value with ⟨stR, flag⟩
  have hspec := insert_spec st key value stR flag hres
  constructor
  · intro hsome
    have hs : (searchInternal st key).isSome = true := by
      unfold search at hsome
      exact Option.isSome_iff_ne_none.mpr hsome
    obtain ⟨h1, h2⟩ := hspec.2.2 hs
    rw [h1, h2]
  · constructor
    · intro hflag
      subst hflag
      constructor
      · unfold search
        by_cases hs : (searchInternal st key).isSome = true
        · exact absurd (hspec.2.2 hs).2 (by simp)
        · simpa [Option.not_isSome_iff_eq_none] using hs
      · simpa using hspec.2.1
    · rintro ⟨-, hnum⟩
      cases flag with
      | true => rfl
      | false =>
        exfalso
        have : stR.numElements_ = st.numElements_ := by simpa using hspec.2.1
        rw [this] at hnum
        exact ne_w64_succ st.numElements_ hnum

/-- Witness for C4 at a concrete input: inserting a key already present in a
fresh-then-populated capacity-16 table is a no-op returning `false`. -/
theorem C4_insert_protocol_witness :
    insert (insert cexFresh16 "a" 5).1 "a" 6 = ((insert cexFresh16 "a" 5).1, false) :=
  (C4_insert_protocol (insert cexFresh16 "a" 5).1 "a" 6).1 (by decide)

/-- Claim C2 evaluated at the failing input: on a fresh capacity-1 table in
Cuckoo mode, after `insert a`, `insert b`, the third call `insert c` exhausts
the 500-eviction budget with `c` already swapped into the primary table,
then appends `(c, 3)` to the stash as well and returns `true`: the key `c`
now has two live entries (primary table and stash) and the displaced entry
`b`-or-`a` pair carried at loop exit is silently dropped. -/
theorem C2_duplicate_live_entry :
    (insert cexCuckoo1ab "c" 3).2 = true ∧
    cexCuckoo1ab.table_ = [some ("b", 2)] ∧
    cexCuckoo1ab.table2_ = [some ("a", 1)] ∧
    (insert cexCuckoo1ab "c" 3).1.table_ = [some ("c", 3)] ∧
    (insert cexCuckoo1ab "c" 3).1.table2_ = [some ("b", 2)] ∧
    (insert cexCuckoo1ab "c" 3).1.stash_ = [("c", 3)] ∧
    size (insert cexCuckoo1ab "c" 3).1 = 3 := by
  decide

/-- Claim C6 evaluated at the failing input: on a fresh capacity-1 table in
Robin Hood mode holding `a` at distance 0, a failed `insert b` (all 500
probes exhausted, `b` lands in the stash) leaves the slot of `a` recording
probe distance 250 while the actual displacement of `a` from its ideal index
is 0: the recorded distances are no longer consistent with actual
displacement after a sequence of inserts. -/
theorem C6_probe_distance_corrupted :
    (insert cexRobin1a "b" 2).2 = true ∧
    (insert cexRobin1a "b" 2).1.table_ = [some ("a", 1)] ∧
    (insert cexRobin1a "b" 2).1.stash_ = [("b", 2)] ∧
    (insert cexRobin1a "b" 2).1.probeDistances_ = [250] ∧
    getProbeDistance (insert cexRobin1a "b" 2).1
      (hash (insert cexRobin1a "b" 2).1 "a") 0 = 0 ∧
    (250 : Nat) ≠ 0 := by
  decide

/-- Counterexample to claim C1 as stated ("for every key k"): inserting the
reserved sentinel key on a fresh capacity-16 table returns `true`, yet the
immediately following `search` returns empty rather than the stored value. -/
theorem C1_counterexample :
    (insert cexFresh16 TOMBSTONE 7).2 = true ∧
    search (insert cexFresh16 TOMBSTONE 7).1 TOMBSTONE = none := by
  decide

/-! ### Inserting on a blank table -/

theorem searchInternal_blank {V : Type} (st : HybridHashTable V) (key : String)
    (htable : st.table_ = List.replicate st.capacity_ none)
    (htable2 : st.table2_ = List.replicate st.capacity_ none)
    (hhop : st.hopInfo_ = List.replicate st.capacity_ 0)
    (hstash : st.stash_ = []) :
    searchInternal st key = none := by
  have hstash1 : searchStash st key = none := by
    unfold searchStash
    rw [hstash]
    rfl
  cases hm : st.currentMode_ with
  | Cuckoo =>
    simp only [searchInternal, hm]
    unfold cuckooSearch cuckooSearch2
    rw [htable, htable2, getD_replicate_none, getD_replicate_none]
    exact hstash1
  | Hopscotch =>
    simp only [searchInternal, hm]
    simp only [hopscotchSearch, hhop, getD_replicate, Nat.zero_testBit, Bool.and_false,
      Bool.false_eq_true, if_false, scanFrom_const_none]
    exact hstash1
  | RobinHood =>
    simp only [searchInternal, hm]
    simp only [robinHoodSearch, robinHoodSearchScan, htable, getD_replicate_none]
    rw [scanFrom_const_some (none : Option V) MAX_PROBE_DISTANCE 0 (by decide)]
    exact hstash1

/-! ### The tombstone sentinel is unsearchable in the indexed arrays -/

theorem tombstone_match_false {V : Type} (p : String × V) :
    (p.1 == TOMBSTONE && !(p.1 == TOMBSTONE)) = false := by
  cases hb : p.1 == TOMBSTONE <;> simp [hb]

theorem searchInternal_tombstone {V : Type} (st : HybridHashTable V)
    (hstash : searchStash st TOMBSTONE = none) :
    searchInternal st TOMBSTONE = none := by
  cases hm : st.currentMode_ with
  | Cuckoo =>
    simp only [searchInternal, hm]
    unfold cuckooSearch cuckooSearch2
    split
    · rename_i p hs1
      rw [tombstone_match_false p]
      simp only [Bool.false_eq_true, if_false]
      split
      · rename_i q hs2
        rw [tombstone_match_false q]
        simp only [Bool.false_eq_true, if_false]
        exact hstash
      · exact hstash
    · split
      · rename_i q hs2
        rw [tombstone_match_false q]
        simp only [Bool.false_eq_true, if_false]
        exact hstash
      · exact hstash
  | Hopscotch =>
    simp only [searchInternal, hm]
    simp only [hopscotchSearch]
    rw [scanFrom_eq_none]
    · exact hstash
    · intro j _ _
      split
      · cases hsl : st.table_.getD
            (getNeighborhoodStart st (hash st TOMBSTONE) + j) none with
        | none => rfl
        | some p => simp [tombstone_match_false p]
      · rfl
  | RobinHood =>
    simp only [searchInternal, hm]
    unfold robinHoodSearch
    cases hscan : robinHoodSearchScan st TOMBSTONE with
    | none => exact hstash
    | some o =>
      cases o with
      | none => exact hstash
      | some w =>
        exfalso
        simp only [robinHoodSearchScan] at hscan
        obtain ⟨j, -, -, hj⟩ := scanFrom_some _ _ _ _ hscan
        cases hsl : st.table_.getD ((hash st TOMBSTONE + j) % st.capacity_) none with
        | none => rw [hsl] at hj; simp at hj
        | some p => rw [hsl] at hj; simp [tombstone_match_false p] at hj

/-- One successful step of the Robin Hood probe loop: an empty slot at the
current probe position seats the carried item immediately. -/
theorem robinHoodAux_place_empty {V : Type} (ideal : Nat) (item : String × V)
    (curDist probe fuel : Nat) (st : HybridHashTable V)
    (hslot : st.table_.getD ((ideal + probe) % st.capacity_) none = none) :
    robinHoodAux ideal item curDist probe (fuel + 1) st =
      ({ st with
          table_ := st.table_.set ((ideal + probe) % st.capacity_) (some item),
          probeDistances_ :=
            st.probeDistances_.set ((ideal + probe) % st.capacity_) curDist,
          numElements_ := w64 (st.numElements_ + 1),
          totalProbes_ := w64 (st.totalProbes_ + 1) }, true) := by
  simp only [robinHoodAux]
  rw [hslot]

/-- One successful step of the Cuckoo eviction loop: an empty primary slot at
the carried item's `hash1` position seats it immediately. -/
theorem cuckooAux_place1 {V : Type} (fuel evictions : Nat) (item : String × V)
    (st : HybridHashTable V) (hev : evictions < MAX_EVICTIONS)
    (hslot : st.table_.getD (hash1 st item.1) none = none) :
    cuckooAux (fuel + 1) evictions item st =
      ({ st with table_ := st.table_.set (hash1 st item.1) (some item),
                 numElements_ := w64 (st.numElements_ + 1) }, true) := by
  simp only [cuckooAux]
  rw [if_pos hev, hslot]

/-! ### Mode placement succeeds on a blank table -/

theorem modeDispatch_blank_true {V : Type} (st : HybridHashTable V) (key : String)
    (value : V)
    (htable : st.table_ = List.replicate st.capacity_ none)
    (hcap : 0 < st.capacity_) :
    (modeDispatch st key value).2 = true := by
  unfold modeDispatch
  split
  · -- Hopscotch
    have hb : hash st key < st.capacity_ := Nat.mod_lt _ hcap
    have hsle : getNeighborhoodStart st (hash st key) ≤ hash st key :=
      Nat.div_mul_le_self _ _
    have hslt : getNeighborhoodStart st (hash st key) < st.capacity_ :=
      lt_of_le_of_lt hsle hb
    have hse : getNeighborhoodStart st (hash st key) <
        getNeighborhoodEnd st (hash st key) := by
      unfold getNeighborhoodEnd
      exact lt_min (by unfold HOP_RANGE; omega) hslt
    have hfind : findEmptySlot st (getNeighborhoodStart st (hash st key))
        (getNeighborhoodEnd st (hash st key)) = getNeighborhoodStart st (hash st key) := by
      unfold findEmptySlot
      obtain ⟨k, hk⟩ : ∃ k, getNeighborhoodEnd st (hash st key) -
          getNeighborhoodStart st (hash st key) = k + 1 :=
        ⟨getNeighborhoodEnd st (hash st key) - getNeighborhoodStart st (hash st key) - 1,
          by omega⟩
      rw [hk, scanFrom_step_some]
      · rfl
      · rw [htable, getD_replicate_none]
        rfl
    simp only [hopscotchInsert, hfind]
    rw [if_pos (Nat.ne_of_lt hslt)]
  · -- Robin Hood
    simp only [robinHoodInsert]
    rw [show MAX_PROBE_DISTANCE = 499 + 1 from rfl]
    rw [robinHoodAux_place_empty _ _ _ _ _ _ (by rw [htable, getD_replicate_none])]
  · -- Cuckoo
    simp only [cuckooInsert]
    rw [cuckooAux_place1 _ _ _ _ (by decide) (by rw [htable, getD_replicate_none])]

theorem insert_eq_of_success {V : Type} (st : HybridHashTable V) (key : String)
    (value : V) (hnone : searchInternal st key = none) (stM : HybridHashTable V)
    (hM : modeDispatch { st with totalInsertions_ := w64 (st.totalInsertions_ + 1) }
        key value = (stM, true)) :
    insert st key value = (stM, true) := by
  simp only [HybridHashTable.insert, hnone, Option.isSome_none, Bool.false_eq_true,
    if_false, hM, insertFinish, if_true]

theorem insert_eq_of_fail {V : Type} (st : HybridHashTable V) (key : String)
    (value : V) (hnone : searchInternal st key = none) (stM : HybridHashTable V)
    (hM : modeDispatch { st with totalInsertions_ := w64 (st.totalInsertions_ + 1) }
        key value = (stM, false)) :
    insert st key value = insertIntoStash stM key value := by
  simp only [HybridHashTable.insert, hnone, Option.isSome_none, Bool.false_eq_true,
    if_false, hM, insertFinish]

/-- Claim C10: on a fresh table of any positive capacity, any mode and any
hash capability, `insert("__TOMBSTONE__", v)` returns `true` and brings
`size()` to 1 with the pair seated in the indexed arrays (the stash stays
empty), yet the immediately following `search("__TOMBSTONE__")` returns
empty: the in-band sentinel makes the stored entry indistinguishable from a
deleted slot. -/
theorem C10_tombstone_insert {V : Type} (cap : Nat) (q : ℚ) (stdHash : String → Nat)
    (m : HashMode) (v : V) (hcap : 0 < cap) :
    (insert (freshTable V cap q stdHash m) TOMBSTONE v).2 = true ∧
    size (insert (freshTable V cap q stdHash m) TOMBSTONE v).1 = 1 ∧
    (insert (freshTable V cap q stdHash m) TOMBSTONE v).1.stash_ = [] ∧
    search (insert (freshTable V cap q stdHash m) TOMBSTONE v).1 TOMBSTONE = none := by
  have hnone : searchInternal (freshTable V cap q stdHash m) TOMBSTONE = none :=
    searchInternal_tombstone _ rfl
  rcases hres : modeDispatch
      { freshTable V cap q stdHash m with
        totalInsertions_ := w64 ((freshTable V cap q stdHash m).totalInsertions_ + 1) }
      TOMBSTONE v with ⟨stM, flagM⟩
  have hflag : flagM = true := by
    have h := modeDispatch_blank_true
      { freshTable V cap q stdHash m with
        totalInsertions_ := w64 ((freshTable V cap q stdHash m).totalInsertions_ + 1) }
      TOMBSTONE v rfl hcap
    rw [hres] at h
    exact h
  subst hflag
  have hins := insert_eq_of_success _ TOMBSTONE v hnone stM hres
  have hM := modeDispatch_spec _ TOMBSTONE v stM true hres
  have hstashM : stM.stash_ = [] := hM.1.2.2.2.2.2.1
  rw [hins]
  refine ⟨rfl, ?_, hstashM, ?_⟩
  · have hnum := hM.2
    simp only [if_true] at hnum
    unfold size
    rw [hnum]
    show w64 (0 + 1) = 1
    decide
  · exact searchInternal_tombstone stM (by unfold searchStash; rw [hstashM]; rfl)

/-- Witness for C10 at a concrete input: capacity 16, Hopscotch mode. -/
theorem C10_tombstone_insert_witness :
    (insert (freshTable Nat 16 ((3 : ℚ) / 4) zeroHash HashMode.Hopscotch)
      TOMBSTONE 0).2 = true ∧
    size (insert (freshTable Nat 16 ((3 : ℚ) / 4) zeroHash HashMode.Hopscotch)
      TOMBSTONE 0).1 = 1 ∧
    (insert (freshTable Nat 16 ((3 : ℚ) / 4) zeroHash HashMode.Hopscotch)
      TOMBSTONE 0).1.stash_ = [] ∧
    search (insert (freshTable Nat 16 ((3 : ℚ) / 4) zeroHash HashMode.Hopscotch)
      TOMBSTONE 0).1 TOMBSTONE = none :=
  C10_tombstone_insert 16 ((3 : ℚ) / 4) zeroHash HashMode.Hopscotch 0 (by decide)

/-! ### Key-absence conversions and search fall-through lemmas -/

theorem noKeyPos_of_tableNoKey {V : Type} (t : List (Option (String × V)))
    (key : String) (h : tableNoKey t key) : noKeyPos t key := by
  intro i w hi
  exact absurd rfl (h (some (key, w)) (mem_of_getD_eq_some t i (key, w) hi))

theorem tableNoKey_of_noKeyPos {V : Type} (t : List (Option (String × V)))
    (key : String) (h : noKeyPos t key) : tableNoKey t key := by
  intro slot hmem hk
  obtain ⟨i, hi, hslot⟩ := List.mem_iff_getElem.mp hmem
  cases slot with
  | none => simp [slotKey] at hk
  | some p =>
    have hgd : t.getD i none = some p := by
      rw [List.getD_eq_getElem?_getD, List.getElem?_eq_getElem hi, hslot]
      rfl
    simp only [slotKey, Option.some.injEq] at hk
    exact h i p.2 (by rw [hgd, ← hk])

theorem slot_key_ne {V : Type} (t : List (Option (String × V))) (key : String)
    (h : tableNoKey t key) (i : Nat) (p : String × V)
    (hg : t.getD i none = some p) : p.1 ≠ key := by
  intro hk
  have hmem := mem_of_getD_eq_some t i p hg
  have := h (some p) hmem
  simp [slotKey, hk] at this

theorem match_cond_false {V : Type} (key : String) (p : String × V)
    (hne : p.1 ≠ key) : (p.1 == key && !(p.1 == TOMBSTONE)) = false := by
  have : (p.1 == key) = false := by simp [hne]
  rw [this]
  rfl

theorem hopscotchSearch_eq_stash {V : Type} (st : HybridHashTable V) (key : String)
    (h : tableNoKey st.table_ key) :
    hopscotchSearch st key = searchStash st key := by
  simp only [hopscotchSearch]
  rw [scanFrom_eq_none]
  intro j _ _
  split
  · cases hsl : st.table_.getD
        (getNeighborhoodStart st (hash st key) + j) none with
    | none => rfl
    | some p =>
      have := match_cond_false key p (slot_key_ne st.table_ key h _ p hsl)
      simp [this]
  · rfl

theorem robinHoodSearch_eq_stash {V : Type} (st : HybridHashTable V) (key : String)
    (h : tableNoKey st.table_ key) :
    robinHoodSearch st key = searchStash st key := by
  unfold robinHoodSearch
  cases hscan : robinHoodSearchScan st key with
  | none => rfl
  | some o =>
    cases o with
    | none => rfl
    | some w =>
      exfalso
      simp only [robinHoodSearchScan] at hscan
      obtain ⟨j, -, -, hj⟩ := scanFrom_some _ _ _ _ hscan
      cases hsl : st.table_.getD ((hash st key + j) % st.capacity_) none with
      | none => rw [hsl] at hj; simp at hj
      | some p =>
        rw [hsl] at hj
        have := match_cond_false key p (slot_key_ne st.table_ key h _ p hsl)
        simp [this] at hj

theorem cuckooSearch_eq_stash {V : Type} (st : HybridHashTable V) (key : String)
    (h1 : tableNoKey st.table_ key) (h2 : tableNoKey st.table2_ key) :
    cuckooSearch st key = searchStash st key := by
  unfold cuckooSearch cuckooSearch2
  split
  · rename_i p hs1
    have := match_cond_false key p (slot_key_ne st.table_ key h1 _ p hs1)
    rw [this]
    simp only [Bool.false_eq_true, if_false]
    split
    · rename_i q hs2
      have := match_cond_false key q (slot_key_ne st.table2_ key h2 _ q hs2)
      rw [this]
      simp only [Bool.false_eq_true, if_false]
    · rfl
  · split
    · rename_i q hs2
      have := match_cond_false key q (slot_key_ne st.table2_ key h2 _ q hs2)
      rw [this]
      simp only [Bool.false_eq_true, if_false]
    · rfl

theorem searchInternal_none_of_absent {V : Type} (st : HybridHashTable V)
    (key : String) (habs : keyAbsent st key) : searchInternal st key = none := by
  have hstash : searchStash st key = none := searchStash_eq_none st key habs.2.2
  cases hm : st.currentMode_ with
  | Cuckoo =>
    simp only [searchInternal, hm]
    rw [cuckooSearch_eq_stash st key habs.1 habs.2.1]
    exact hstash
  | Hopscotch =>
    simp only [searchInternal, hm]
    rw [hopscotchSearch_eq_stash st key habs.1]
    exact hstash
  | RobinHood =>
    simp only [searchInternal, hm]
    rw [robinHoodSearch_eq_stash st key habs.1]
    exact hstash

/-! ### Search finds a freshly placed pair -/

theorem key_match_true {V : Type} (key : String) (value : V) (hkey : key ≠ TOMBSTONE) :
    (((key, value).1 == key && !((key, value).1 == TOMBSTONE))) = true := by
  simp [hkey]

theorem hopscotchSearch_found {V : Type} (stR : HybridHashTable V)
    (stOld : List (Option (String × V))) (key : String) (value : V) (b i : Nat)
    (hkey : key ≠ TOMBSTONE)
    (hb : hash stR key = b)
    (hi1 : getNeighborhoodStart stR b ≤ i)
    (hi2 : i < getNeighborhoodEnd stR b)
    (htab : stR.table_ = stOld.set i (some (key, value)))
    (hlen : stOld.length = stR.capacity_)
    (hnoK : tableNoKey stOld key)
    (hbit : (stR.hopInfo_.getD b 0).testBit (i - getNeighborhoodStart stR b) = true) :
    hopscotchSearch stR key = some value := by
  have hie_cap : i < stR.capacity_ :=
    lt_of_lt_of_le hi2 (min_le_right _ _)
  have hie32 : i < getNeighborhoodStart stR b + HOP_RANGE :=
    lt_of_lt_of_le hi2 (min_le_left _ _)
  have hscan : scanFrom (fun j =>
      if decide (getNeighborhoodStart stR b + j < getNeighborhoodEnd stR b) &&
          (stR.hopInfo_.getD b 0).testBit j then
        match stR.table_.getD (getNeighborhoodStart stR b + j) none with
        | some p => if p.1 == key && !(p.1 == TOMBSTONE) then some p.2 else none
        | none => none
      else none) 0 HOP_RANGE = some value := by
    apply scanFrom_found _ value HOP_RANGE 0 (i - getNeighborhoodStart stR b)
      (Nat.zero_le _) (by omega)
    · have hguard : getNeighborhoodStart stR b + (i - getNeighborhoodStart stR b) = i :=
        Nat.add_sub_cancel' hi1
      rw [hguard, hbit, decide_eq_true hi2]
      simp only [Bool.true_and]
      rw [htab, getD_set_self _ _ _ _ (by rw [hlen]; exact hie_cap)]
      simp [hkey]
    · intro j _ hj
      have hne : getNeighborhoodStart stR b + j ≠ i := by omega
      by_cases hg : getNeighborhoodStart stR b + j < getNeighborhoodEnd stR b ∧
          (stR.hopInfo_.getD b 0).testBit j = true
      · left
        rw [htab, getD_set_ne _ _ _ _ _ (fun he => hne he.symm)]
        rw [decide_eq_true hg.1, hg.2]
        simp only [Bool.true_and]
        cases hsl : stOld.getD (getNeighborhoodStart stR b + j) none with
        | none => rfl
        | some p =>
          have := match_cond_false key p (slot_key_ne stOld key hnoK _ p hsl)
          simp [this]
      · left
        rcases Decidable.not_and_iff_or_not.mp hg with hg1 | hg2
        · simp [hg1]
        · simp [Bool.not_eq_true] at hg2
          simp [hg2]
  simp only [hopscotchSearch, hb, hscan]

theorem robinHoodSearch_found {V : Type} (st : HybridHashTable V) (key : String)
    (value : V) (ideal cap p : Nat)
    (hkey : key ≠ TOMBSTONE)
    (hideal : hash st key = ideal)
    (hcap : st.capacity_ = cap)
    (hp : p < MAX_PROBE_DISTANCE)
    (hseat : onlyKeyAt st.table_ key value ((ideal + p) % cap))
    (hbefore : ∀ j, j < p → (st.table_.getD ((ideal + j) % cap) none).isSome = true) :
    robinHoodSearch st key = some value := by
  have hscan : robinHoodSearchScan st key = some (some value) := by
    simp only [robinHoodSearchScan, hideal, hcap]
    apply scanFrom_found _ (some value) MAX_PROBE_DISTANCE 0 p (Nat.zero_le _) (by omega)
    · rw [hseat.1]
      simp [hkey]
    · intro j _ hj
      by_cases hidx : (ideal + j) % cap = (ideal + p) % cap
      · right
        rw [hidx, hseat.1]
        simp [hkey]
      · have hsome := hbefore j hj
        cases hsl : st.table_.getD ((ideal + j) % cap) none with
        | none => rw [hsl] at hsome; simp at hsome
        | some q =>
          left
          have hqk : q.1 ≠ key := by
            intro hk
            apply hseat.2 _ hidx q.2
            rw [hsl, ← hk]
          have := match_cond_false key q hqk
          simp [this]
  unfold robinHoodSearch
  rw [hscan]

theorem cuckooSearch_found {V : Type} (st : HybridHashTable V) (key : String)
    (value : V) (hkey : key ≠ TOMBSTONE)
    (h : st.table_.getD (hash1 st key) none = some (key, value) ∨
      ((∀ w : V, st.table_.getD (hash1 st key) none ≠ some (key, w)) ∧
        st.table2_.getD (hash2 st key) none = some (key, value))) :
    cuckooSearch st key = some value := by
  unfold cuckooSearch cuckooSearch2
  rcases h with hseat | ⟨hne, hseat2⟩
  · rw [hseat]
    simp [hkey]
  · cases hs1 : st.table_.getD (hash1 st key) none with
    | none =>
      rw [hseat2]
      simp [hkey]
    | some q =>
      have hqk : q.1 ≠ key := by
        intro hk
        exact hne q.2 (by rw [hs1, ← hk])
      have hcond := match_cond_false key q hqk
      rw [hseat2]
      simp [hcond, hkey]

/-! ### Hopscotch round trip -/

theorem findEmptySlot_bounds {V : Type} (st : HybridHashTable V) (s e : Nat)
    (h : findEmptySlot st s e ≠ st.capacity_) :
    s ≤ findEmptySlot st s e ∧ findEmptySlot st s e < e := by
  unfold findEmptySlot at h ⊢
  cases hscan : scanFrom (fun i =>
      if emptyOrTomb (st.table_.getD i none) then some i else none) s (e - s) with
  | none => rw [hscan] at h; exact absurd rfl h
  | some j =>
    obtain ⟨j1, hj1, hj2, hj3⟩ := scanFrom_some _ _ _ _ hscan
    have hjj : j1 = j := by
      by_cases hc : emptyOrTomb (st.table_.getD j1 none) = true
      · rw [if_pos hc] at hj3
        exact Option.some.inj hj3
      · rw [if_neg hc] at hj3
        cases hj3
    subst hjj
    simp only [Option.getD_some]
    omega

theorem hopscotchInsert_search {V : Type} (st : HybridHashTable V) (key : String)
    (value : V)
    (hlen_t : st.table_.length = st.capacity_)
    (hlen_h : st.hopInfo_.length = st.capacity_)
    (hcap : 0 < st.capacity_)
    (hkey : key ≠ TOMBSTONE)
    (hnoK : tableNoKey st.table_ key) :
    ∀ stR flag, hopscotchInsert st key value = (stR, flag) →
      (flag = true → hopscotchSearch stR key = some value) ∧
      (flag = false → tableNoKey stR.table_ key) := by
  intro stR flag h
  have hb : hash st key < st.capacity_ := Nat.mod_lt _ hcap
  simp only [hopscotchInsert] at h
  split at h
  · rename_i hne
    obtain ⟨hsi, hie⟩ := findEmptySlot_bounds st _ _ hne
    cases h
    refine ⟨fun _ => ?_, fun hcontra => nomatch hcontra⟩
    refine hopscotchSearch_found _ st.table_ key value (hash st key)
      (findEmptySlot st (getNeighborhoodStart st (hash st key))
        (getNeighborhoodEnd st (hash st key))) hkey ?_ ?_ ?_ ?_ ?_ ?_ ?_
    · rfl
    · exact hsi
    · exact hie
    · rfl
    · exact hlen_t
    · exact hnoK
    · simp only [getNeighborhoodStart, updateHopInfo]
      rw [getD_set_self _ _ _ _ (by rw [hlen_h]; exact hb)]
      rw [if_pos trivial]
      rw [Nat.testBit_or, Nat.one_shiftLeft, Nat.testBit_two_pow_self, Bool.or_true]
  · rename_i hfull
    split at h
    · rename_i st1 heq
      have hd := displace_spec st (hash st key)
      rw [heq] at hd
      obtain ⟨⟨d1, d2, d3, d4, d5, d6, d7, d8, d9, d10⟩, dnum, dkeep⟩ := hd
      have hnoK1 : tableNoKey st1.table_ key := dkeep key hnoK
      split at h
      · rename_i hne1
        obtain ⟨hsi, hie⟩ := findEmptySlot_bounds st1 _ _ hne1
        cases h
        refine ⟨fun _ => ?_, fun hcontra => nomatch hcontra⟩
        refine hopscotchSearch_found _ st1.table_ key value (hash st key)
          (findEmptySlot st1 (getNeighborhoodStart st (hash st key))
            (getNeighborhoodEnd st (hash st key))) hkey ?_ ?_ ?_ ?_ ?_ ?_ ?_
        · show hash st1 key = hash st key
          unfold HybridHashTable.hash
          rw [d3, d1]
        · exact hsi
        · show findEmptySlot st1 _ _ < getNeighborhoodEnd _ _
          unfold getNeighborhoodEnd at hie ⊢
          show findEmptySlot st1 _ _ < min _ st1.capacity_
          rw [d1]
          exact hie
        · rfl
        · show st1.table_.length = st1.capacity_
          rw [d7, hlen_t, d1]
        · exact hnoK1
        · simp only [getNeighborhoodStart, updateHopInfo]
          rw [getD_set_self _ _ _ _ (by rw [d9, hlen_h]; exact hb)]
          rw [if_pos trivial]
          rw [Nat.testBit_or, Nat.one_shiftLeft, Nat.testBit_two_pow_self, Bool.or_true]
      · cases h
        exact ⟨(fun hcontra => nomatch hcontra), fun _ => hnoK1⟩
    · rename_i st1 heq
      have hd := displace_spec st (hash st key)
      rw [heq] at hd
      cases h
      exact ⟨(fun hcontra => nomatch hcontra), fun _ => hd.2.2 key hnoK⟩

/-! ### Robin Hood round trip -/

theorem robinHoodAux_search_spec {V : Type} (key : String) (value : V) (ideal : Nat)
    (hkey : key ≠ TOMBSTONE) :
    ∀ fuel probe item curDist (st : HybridHashTable V) stR flag,
      st.table_.length = st.capacity_ → 0 < st.capacity_ →
      probe + fuel = MAX_PROBE_DISTANCE →
      (∀ j, j < probe →
        (st.table_.getD ((ideal + j) % st.capacity_) none).isSome = true) →
      ((item = (key, value) ∧ noKeyPos st.table_ key) ∨
       (item.1 ≠ key ∧ ∃ p, p < probe ∧
          onlyKeyAt st.table_ key value ((ideal + p) % st.capacity_))) →
      robinHoodAux ideal item curDist probe fuel st = (stR, flag) →
      ((∃ p, p < MAX_PROBE_DISTANCE ∧
          onlyKeyAt stR.table_ key value ((ideal + p) % st.capacity_) ∧
          ∀ j, j < p →
            (stR.table_.getD ((ideal + j) % st.capacity_) none).isSome = true) ∨
       (flag = false ∧ noKeyPos stR.table_ key)) := by
  intro fuel
  induction fuel with
  | zero =>
    intro probe item curDist st stR flag hlen hcap hpf hbefore hinv h
    simp only [robinHoodAux] at h
    cases h
    rcases hinv with ⟨-, hnoKp⟩ | ⟨-, p, hp, hseat⟩
    · exact Or.inr ⟨rfl, hnoKp⟩
    · exact Or.inl ⟨p, by omega, hseat, fun j hj => hbefore j (by omega)⟩
  | succ n ih =>
    intro probe item curDist st stR flag hlen hcap hpf hbefore hinv h
    simp only [robinHoodAux] at h
    have hcilt : (ideal + probe) % st.capacity_ < st.table_.length := by
      rw [hlen]
      exact Nat.mod_lt _ hcap
    split at h
    · -- empty slot: place the carried item
      rename_i hslot
      cases h
      rcases hinv with ⟨hitem, hnoKp⟩ | ⟨hitem_ne, p, hp, hseat⟩
      · subst hitem
        refine Or.inl ⟨probe, by omega, ⟨?_, ?_⟩, ?_⟩
        · exact getD_set_self _ _ _ _ hcilt
        · intro i hi w
          rw [getD_set_ne _ _ _ _ _ (fun he => hi he.symm)]
          exact hnoKp i w
        · intro j hj
          by_cases hidx : (ideal + j) % st.capacity_ = (ideal + probe) % st.capacity_
          · rw [hidx, getD_set_self _ _ _ _ hcilt]
            rfl
          · rw [getD_set_ne _ _ _ _ _ (fun he => hidx he.symm)]
            exact hbefore j hj
      · have hspne : (ideal + p) % st.capacity_ ≠ (ideal + probe) % st.capacity_ := by
          intro he
          rw [← he, hseat.1] at hslot
          cases hslot
        refine Or.inl ⟨p, by omega, ⟨?_, ?_⟩, ?_⟩
        · rw [getD_set_ne _ _ _ _ _ (fun he => hspne he.symm)]
          exact hseat.1
        · intro i hi w
          by_cases hic : i = (ideal + probe) % st.capacity_
          · subst hic
            rw [getD_set_self _ _ _ _ hcilt]
            intro he
            apply hitem_ne
            cases he
            rfl
          · rw [getD_set_ne _ _ _ _ _ (fun he => hic he.symm)]
            exact hseat.2 i hi w
        · intro j hj
          by_cases hidx : (ideal + j) % st.capacity_ = (ideal + probe) % st.capacity_
          · rw [hidx, getD_set_self _ _ _ _ hcilt]
            rfl
          · rw [getD_set_ne _ _ _ _ _ (fun he => hidx he.symm)]
            exact hbefore j (by omega)
    · rename_i resident hslot
      split at h
      · -- tombstoned slot: place the carried item
        rename_i htomb
        have hrtomb : resident.1 = TOMBSTONE := by
          simpa using htomb
        cases h
        rcases hinv with ⟨hitem, hnoKp⟩ | ⟨hitem_ne, p, hp, hseat⟩
        · subst hitem
          refine Or.inl ⟨probe, by omega, ⟨?_, ?_⟩, ?_⟩
          · exact getD_set_self _ _ _ _ hcilt
          · intro i hi w
            rw [getD_set_ne _ _ _ _ _ (fun he => hi he.symm)]
            exact hnoKp i w
          · intro j hj
            by_cases hidx : (ideal + j) % st.capacity_ = (ideal + probe) % st.capacity_
            · rw [hidx, getD_set_self _ _ _ _ hcilt]
              rfl
            · rw [getD_set_ne _ _ _ _ _ (fun he => hidx he.symm)]
              exact hbefore j hj
        · have hspne : (ideal + p) % st.capacity_ ≠ (ideal + probe) % st.capacity_ := by
            intro he
            rw [← he, hseat.1] at hslot
            apply hkey
            cases hslot
            exact hrtomb
          refine Or.inl ⟨p, by omega, ⟨?_, ?_⟩, ?_⟩
          · rw [getD_set_ne _ _ _ _ _ (fun he => hspne he.symm)]
            exact hseat.1
          · intro i hi w
            by_cases hic : i = (ideal + probe) % st.capacity_
            · subst hic
              rw [getD_set_self _ _ _ _ hcilt]
              intro he
              apply hitem_ne
              cases he
              rfl
            · rw [getD_set_ne _ _ _ _ _ (fun he => hic he.symm)]
              exact hseat.2 i hi w
          · intro j hj
            by_cases hidx : (ideal + j) % st.capacity_ = (ideal + probe) % st.capacity_
            · rw [hidx, getD_set_self _ _ _ _ hcilt]
              rfl
            · rw [getD_set_ne _ _ _ _ _ (fun he => hidx he.symm)]
              exact hbefore j (by omega)
      · split at h
        · -- the carried item is poorer: swap and continue with the resident
          have hrec := ih (probe + 1) resident _ _ _ _ ?_ ?_ ?_ ?_ ?_ h
          · exact hrec
          · simp [List.length_set, hlen]
          · exact hcap
          · omega
          · intro j hj
            by_cases hidx : (ideal + j) % st.capacity_ = (ideal + probe) % st.capacity_
            · rw [hidx]
              show ((st.table_.set ((ideal + probe) % st.capacity_) (some item)).getD
                ((ideal + probe) % st.capacity_) none).isSome = true
              rw [getD_set_self _ _ _ _ hcilt]
              rfl
            · have hjne : j ≠ probe := fun he => hidx (by rw [he])
              show ((st.table_.set ((ideal + probe) % st.capacity_) (some item)).getD
                ((ideal + j) % st.capacity_) none).isSome = true
              rw [getD_set_ne _ _ _ _ _ (fun he => hidx he.symm)]
              exact hbefore j (by omega)
          · rcases hinv with ⟨hitem, hnoKp⟩ | ⟨hitem_ne, p, hp, hseat⟩
            · subst hitem
              have hres_ne : resident.1 ≠ key := by
                intro hk
                apply hnoKp ((ideal + probe) % st.capacity_) resident.2
                rw [hslot, ← hk]
              refine Or.inr ⟨hres_ne, probe, by omega, ⟨?_, ?_⟩⟩
              · show (st.table_.set ((ideal + probe) % st.capacity_)
                  (some (key, value))).getD ((ideal + probe) % st.capacity_) none =
                  some (key, value)
                exact getD_set_self _ _ _ _ hcilt
              · intro i hi w
                show (st.table_.set ((ideal + probe) % st.capacity_)
                  (some (key, value))).getD i none ≠ some (key, w)
                rw [getD_set_ne _ _ _ _ _ (fun he => hi he.symm)]
                exact hnoKp i w
            · by_cases hsp : (ideal + p) % st.capacity_ = (ideal + probe) % st.capacity_
              · have hres_eq : resident = (key, value) := by
                  have := hseat.1
                  rw [hsp, hslot] at this
                  exact Option.some.inj this
                refine Or.inl ⟨hres_eq, ?_⟩
                intro i w
                by_cases hic : i = (ideal + probe) % st.capacity_
                · subst hic
                  show (st.table_.set ((ideal + probe) % st.capacity_)
                    (some item)).getD ((ideal + probe) % st.capacity_) none ≠
                    some (key, w)
                  rw [getD_set_self _ _ _ _ hcilt]
                  intro he
                  apply hitem_ne
                  cases he
                  rfl
                · show (st.table_.set ((ideal + probe) % st.capacity_)
                    (some item)).getD i none ≠ some (key, w)
                  rw [getD_set_ne _ _ _ _ _ (fun he => hic he.symm)]
                  exact hseat.2 i (by rw [hsp]; exact hic) w
              · have hres_ne : resident.1 ≠ key := by
                  intro hk
                  apply hseat.2 ((ideal + probe) % st.capacity_)
                    (fun he => hsp he.symm) resident.2
                  rw [hslot, ← hk]
                refine Or.inr ⟨hres_ne, p, by omega, ⟨?_, ?_⟩⟩
                · show (st.table_.set ((ideal + probe) % st.capacity_)
                    (some item)).getD ((ideal + p) % st.capacity_) none =
                    some (key, value)
                  rw [getD_set_ne _ _ _ _ _ (fun he => hsp he.symm)]
                  exact hseat.1
                · intro i hi w
                  by_cases hic : i = (ideal + probe) % st.capacity_
                  · subst hic
                    show (st.table_.set ((ideal + probe) % st.capacity_)
                      (some item)).getD ((ideal + probe) % st.capacity_) none ≠
                      some (key, w)
                    rw [getD_set_self _ _ _ _ hcilt]
                    intro he
                    apply hitem_ne
                    cases he
                    rfl
                  · show (st.table_.set ((ideal + probe) % st.capacity_)
                      (some item)).getD i none ≠ some (key, w)
                    rw [getD_set_ne _ _ _ _ _ (fun he => hic he.symm)]
                    exact hseat.2 i hi w
        · -- the resident is at least as poor: keep probing with the same item
          have hrec := ih (probe + 1) item _ _ _ _ ?_ ?_ ?_ ?_ ?_ h
          · exact hrec
          · exact hlen
          · exact hcap
          · omega
          · intro j hj
            by_cases hj1 : j < probe
            · exact hbefore j hj1
            · have : j = probe := by omega
              subst this
              show (st.table_.getD ((ideal + j) % st.capacity_) none).isSome = true
              rw [hslot]
              rfl
          · rcases hinv with ⟨hitem, hnoKp⟩ | ⟨hitem_ne, p, hp, hseat⟩
            · exact Or.inl ⟨hitem, hnoKp⟩
            · exact Or.inr ⟨hitem_ne, p, by omega, hseat⟩

/-! ### Cuckoo round trip -/

theorem cuckooAux_search_spec {V : Type} (key : String) (value : V)
    (hkey : key ≠ TOMBSTONE) :
    ∀ fuel evictions item (st : HybridHashTable V) stR flag,
      st.table_.length = st.capacity_ → st.table2_.length = st.capacity_ →
      0 < st.capacity_ →
      ((item = (key, value) ∧ noKeyPos st.table_ key ∧ noKeyPos st.table2_ key) ∨
       (item.1 ≠ key ∧ onlyKeyAt st.table_ key value (hash1 st key) ∧
          noKeyPos st.table2_ key) ∨
       (item.1 ≠ key ∧ noKeyPos st.table_ key ∧
          onlyKeyAt st.table2_ key value (hash2 st key))) →
      cuckooAux fuel evictions item st = (stR, flag) →
      ((stR.table_.getD (hash1 st key) none = some (key, value) ∨
        ((∀ w : V, stR.table_.getD (hash1 st key) none ≠ some (key, w)) ∧
          stR.table2_.getD (hash2 st key) none = some (key, value))) ∨
       (flag = false ∧ noKeyPos stR.table_ key ∧ noKeyPos stR.table2_ key)) := by
  intro fuel
  induction fuel with
  | zero =>
    intro evictions item st stR flag hlen1 hlen2 hcap hinv h
    simp only [cuckooAux] at h
    cases h
    rcases hinv with ⟨-, hno1, hno2⟩ | ⟨-, hseat1, hno2⟩ | ⟨-, hno1, hseat2⟩
    · exact Or.inr ⟨rfl, hno1, hno2⟩
    · exact Or.inl (Or.inl hseat1.1)
    · exact Or.inl (Or.inr ⟨fun w => hno1 _ w, hseat2.1⟩)
  | succ n ih =>
    intro evictions item st stR flag hlen1 hlen2 hcap hinv h
    simp only [cuckooAux] at h
    split at h
    · rename_i hev
      have hidx1lt : hash1 st item.1 < st.table_.length := by
        rw [hlen1]
        exact Nat.mod_lt _ hcap
      split at h
      · -- empty primary slot: place item at hash1(item)
        rename_i hslot1
        cases h
        rcases hinv with ⟨hitem, hno1, hno2⟩ | ⟨hitem_ne, hseat1, hno2⟩ |
          ⟨hitem_ne, hno1, hseat2⟩
        · subst hitem
          exact Or.inl (Or.inl (getD_set_self _ _ _ _ hidx1lt))
        · have hne : hash1 st key ≠ hash1 st item.1 := by
            intro he
            rw [← he, hseat1.1] at hslot1
            cases hslot1
          refine Or.inl (Or.inl ?_)
          show (st.table_.set (hash1 st item.1) (some item)).getD
            (hash1 st key) none = some (key, value)
          rw [getD_set_ne _ _ _ _ _ (fun he => hne he.symm)]
          exact hseat1.1
        · refine Or.inl (Or.inr ⟨?_, hseat2.1⟩)
          intro w
          show (st.table_.set (hash1 st item.1) (some item)).getD
            (hash1 st key) none ≠ some (key, w)
          by_cases hic : hash1 st key = hash1 st item.1
          · rw [hic, getD_set_self _ _ _ _ hidx1lt]
            intro he
            apply hitem_ne
            cases he
            rfl
          · rw [getD_set_ne _ _ _ _ _ (fun he => hic he.symm)]
            exact hno1 _ w
      · rename_i r1 hslot1
        split at h
        · -- tombstoned primary slot: place item at hash1(item)
          rename_i htomb1
          have hr1tomb : r1.1 = TOMBSTONE := by simpa using htomb1
          cases h
          rcases hinv with ⟨hitem, hno1, hno2⟩ | ⟨hitem_ne, hseat1, hno2⟩ |
            ⟨hitem_ne, hno1, hseat2⟩
          · subst hitem
            exact Or.inl (Or.inl (getD_set_self _ _ _ _ hidx1lt))
          · have hne : hash1 st key ≠ hash1 st item.1 := by
              intro he
              rw [← he, hseat1.1] at hslot1
              apply hkey
              cases hslot1
              exact hr1tomb
            refine Or.inl (Or.inl ?_)
            show (st.table_.set (hash1 st item.1) (some item)).getD
              (hash1 st key) none = some (key, value)
            rw [getD_set_ne _ _ _ _ _ (fun he => hne he.symm)]
            exact hseat1.1
          · refine Or.inl (Or.inr ⟨?_, hseat2.1⟩)
            intro w
            show (st.table_.set (hash1 st item.1) (some item)).getD
              (hash1 st key) none ≠ some (key, w)
            by_cases hic : hash1 st key = hash1 st item.1
            · rw [hic, getD_set_self _ _ _ _ hidx1lt]
              intro he
              apply hitem_ne
              cases he
              rfl
            · rw [getD_set_ne _ _ _ _ _ (fun he => hic he.symm)]
              exact hno1 _ w
        · -- swap in the primary table, carry r1 to the secondary table
          rename_i htomb1
          have hr1ntomb : r1.1 ≠ TOMBSTONE := by simpa using htomb1
          -- the mid-loop invariant for the modified primary table and carried r1
          have hmid :
              (r1 = (key, value) ∧
                noKeyPos (st.table_.set (hash1 st item.1) (some item)) key ∧
                noKeyPos st.table2_ key) ∨
              (r1.1 ≠ key ∧
                onlyKeyAt (st.table_.set (hash1 st item.1) (some item)) key value
                  (hash1 st key) ∧
                noKeyPos st.table2_ key) ∨
              (r1.1 ≠ key ∧
                noKeyPos (st.table_.set (hash1 st item.1) (some item)) key ∧
                onlyKeyAt st.table2_ key value (hash2 st key)) := by
            rcases hinv with ⟨hitem, hno1, hno2⟩ | ⟨hitem_ne, hseat1, hno2⟩ |
              ⟨hitem_ne, hno1, hseat2⟩
            · subst hitem
              have hr1ne : r1.1 ≠ key := by
                intro hk
                apply hno1 (hash1 st (key, value).1) r1.2
                rw [hslot1, ← hk]
              refine Or.inr (Or.inl ⟨hr1ne, ⟨?_, ?_⟩, hno2⟩)
              · exact getD_set_self _ _ _ _ hidx1lt
              · intro i hi w
                rw [getD_set_ne _ _ _ _ _ (fun he => hi he.symm)]
                exact hno1 i w
            · by_cases hic : hash1 st item.1 = hash1 st key
              · have hr1eq : r1 = (key, value) := by
                  have := hseat1.1
                  rw [← hic, hslot1] at this
                  exact Option.some.inj this
                refine Or.inl ⟨hr1eq, ?_, hno2⟩
                intro i w
                by_cases hi : i = hash1 st item.1
                · subst hi
                  rw [getD_set_self _ _ _ _ hidx1lt]
                  intro he
                  apply hitem_ne
                  cases he
                  rfl
                · rw [getD_set_ne _ _ _ _ _ (fun he => hi he.symm)]
                  exact hseat1.2 i (by rw [← hic]; exact hi) w
              · have hr1ne : r1.1 ≠ key := by
                  intro hk
                  apply hseat1.2 (hash1 st item.1) hic r1.2
                  rw [hslot1, ← hk]
                refine Or.inr (Or.inl ⟨hr1ne, ⟨?_, ?_⟩, hno2⟩)
                · rw [getD_set_ne _ _ _ _ _ hic]
                  exact hseat1.1
                · intro i hi w
                  by_cases hi1 : i = hash1 st item.1
                  · subst hi1
                    rw [getD_set_self _ _ _ _ hidx1lt]
                    intro he
                    apply hitem_ne
                    cases he
                    rfl
                  · rw [getD_set_ne _ _ _ _ _ (fun he => hi1 he.symm)]
                    exact hseat1.2 i hi w
            · have hr1ne : r1.1 ≠ key := by
                intro hk
                apply hno1 (hash1 st item.1) r1.2
                rw [hslot1, ← hk]
              refine Or.inr (Or.inr ⟨hr1ne, ?_, hseat2⟩)
              intro i w
              by_cases hi : i = hash1 st item.1
              · subst hi
                rw [getD_set_self _ _ _ _ hidx1lt]
                intro he
                apply hitem_ne
                cases he
                rfl
              · rw [getD_set_ne _ _ _ _ _ (fun he => hi he.symm)]
                exact hno1 i w
          have hidx2lt : ∀ x : String, hash2 st x < st.table2_.length := by
            intro x
            rw [hlen2]
            exact Nat.mod_lt _ hcap
          split at h
          · -- empty secondary slot: place r1 there
            rename_i hslot2
            have hslot2 : st.table2_.getD (hash2 st r1.1) none = none := hslot2
            cases h
            rcases hmid with ⟨hr1eq, hno1m, hno2⟩ | ⟨hr1ne, hseat1m, hno2⟩ |
              ⟨hr1ne, hno1m, hseat2⟩
            · subst hr1eq
              refine Or.inl (Or.inr ⟨fun w => hno1m _ w, ?_⟩)
              exact getD_set_self _ _ _ _ (hidx2lt _)
            · exact Or.inl (Or.inl hseat1m.1)
            · have hne2 : hash2 st key ≠ hash2 st r1.1 := by
                intro he
                rw [← he, hseat2.1] at hslot2
                cases hslot2
              refine Or.inl (Or.inr ⟨fun w => hno1m _ w, ?_⟩)
              show (st.table2_.set (hash2 st r1.1) (some r1)).getD
                (hash2 st key) none = some (key, value)
              rw [getD_set_ne _ _ _ _ _ (fun he => hne2 he.symm)]
              exact hseat2.1
          · rename_i r2 hslot2
            split at h
            · -- tombstoned secondary slot: place r1 there
              rename_i htomb2
              have hslot2 : st.table2_.getD (hash2 st r1.1) none = some r2 := hslot2
              have hr2tomb : r2.1 = TOMBSTONE := by simpa using htomb2
              cases h
              rcases hmid with ⟨hr1eq, hno1m, hno2⟩ | ⟨hr1ne, hseat1m, hno2⟩ |
                ⟨hr1ne, hno1m, hseat2⟩
              · subst hr1eq
                refine Or.inl (Or.inr ⟨fun w => hno1m _ w, ?_⟩)
                exact getD_set_self _ _ _ _ (hidx2lt _)
              · exact Or.inl (Or.inl hseat1m.1)
              · have hne2 : hash2 st key ≠ hash2 st r1.1 := by
                  intro he
                  rw [← he, hseat2.1] at hslot2
                  apply hkey
                  cases hslot2
                  exact hr2tomb
                refine Or.inl (Or.inr ⟨fun w => hno1m _ w, ?_⟩)
                show (st.table2_.set (hash2 st r1.1) (some r1)).getD
                  (hash2 st key) none = some (key, value)
                rw [getD_set_ne _ _ _ _ _ (fun he => hne2 he.symm)]
                exact hseat2.1
            · -- swap in the secondary table as well, recurse with r2
              rename_i htomb2
              have hslot2 : st.table2_.getD (hash2 st r1.1) none = some r2 := hslot2
              have hrec := ih (evictions + 2) r2 _ _ _ ?_ ?_ ?_ ?_ h
              · exact hrec
              · simp [List.length_set, hlen1]
              · simp [List.length_set, hlen2]
              · exact hcap
              · rcases hmid with ⟨hr1eq, hno1m, hno2⟩ | ⟨hr1ne, hseat1m, hno2⟩ |
                  ⟨hr1ne, hno1m, hseat2⟩
                · have hr2ne : r2.1 ≠ key := by
                    intro hk
                    apply hno2 (hash2 st r1.1) r2.2
                    rw [hslot2, ← hk]
                  refine Or.inr (Or.inr ⟨hr2ne, hno1m, ⟨?_, ?_⟩⟩)
                  · show (st.table2_.set (hash2 st r1.1) (some r1)).getD
                      (hash2 st key) none = some (key, value)
                    rw [hr1eq]
                    exact getD_set_self _ _ _ _ (hidx2lt _)
                  · intro i hi w
                    show (st.table2_.set (hash2 st r1.1) (some r1)).getD i
                      none ≠ some (key, w)
                    rw [hr1eq]
                    by_cases hic : i = hash2 st (key, value).1
                    · exact absurd hic hi
                    · rw [getD_set_ne _ _ _ _ _ (fun he => hic he.symm)]
                      exact hno2 i w
                · have hr2ne : r2.1 ≠ key := by
                    intro hk
                    apply hno2 (hash2 st r1.1) r2.2
                    rw [hslot2, ← hk]
                  refine Or.inr (Or.inl ⟨hr2ne, hseat1m, ?_⟩)
                  intro i w
                  show (st.table2_.set (hash2 st r1.1) (some r1)).getD i
                    none ≠ some (key, w)
                  by_cases hic : i = hash2 st r1.1
                  · subst hic
                    rw [getD_set_self _ _ _ _ (hidx2lt _)]
                    intro he
                    apply hr1ne
                    cases he
                    rfl
                  · rw [getD_set_ne _ _ _ _ _ (fun he => hic he.symm)]
                    exact hno2 i w
                · by_cases hic : hash2 st r1.1 = hash2 st key
                  · have hr2eq : r2 = (key, value) := by
                      have := hseat2.1
                      rw [← hic, hslot2] at this
                      exact Option.some.inj this
                    refine Or.inl ⟨hr2eq, hno1m, ?_⟩
                    intro i w
                    show (st.table2_.set (hash2 st r1.1) (some r1)).getD i
                      none ≠ some (key, w)
                    by_cases hi2 : i = hash2 st r1.1
                    · subst hi2
                      rw [getD_set_self _ _ _ _ (hidx2lt _)]
                      intro he
                      apply hr1ne
                      cases he
                      rfl
                    · rw [getD_set_ne _ _ _ _ _ (fun he => hi2 he.symm)]
                      exact hseat2.2 i (by rw [← hic]; exact hi2) w
                  · have hr2ne : r2.1 ≠ key := by
                      intro hk
                      apply hseat2.2 (hash2 st r1.1) hic r2.2
                      rw [hslot2, ← hk]
                    refine Or.inr (Or.inr ⟨hr2ne, hno1m, ⟨?_, ?_⟩⟩)
                    · show (st.table2_.set (hash2 st r1.1) (some r1)).getD
                        (hash2 st key) none = some (key, value)
                      rw [getD_set_ne _ _ _ _ _ hic]
                      exact hseat2.1
                    · intro i hi w
                      show (st.table2_.set (hash2 st r1.1) (some r1)).getD i
                        none ≠ some (key, w)
                      by_cases hi2 : i = hash2 st r1.1
                      · subst hi2
                        rw [getD_set_self _ _ _ _ (hidx2lt _)]
                        intro he
                        apply hr1ne
                        cases he
                        rfl
                      · rw [getD_set_ne _ _ _ _ _ (fun he => hi2 he.symm)]
                        exact hseat2.2 i hi w
    · cases h
      rcases hinv with ⟨-, hno1, hno2⟩ | ⟨-, hseat1, hno2⟩ | ⟨-, hno1, hseat2⟩
      · exact Or.inr ⟨rfl, hno1, hno2⟩
      · exact Or.inl (Or.inl hseat1.1)
      · exact Or.inl (Or.inr ⟨fun w => hno1 _ w, hseat2.1⟩)

theorem modeDispatch_eq_hop {V : Type} (st : HybridHashTable V) (key : String)
    (value : V) (h : st.currentMode_ = HashMode.Hopscotch) :
    modeDispatch st key value = hopscotchInsert st key value := by
  unfold modeDispatch
  rw [h]

theorem modeDispatch_eq_rh {V : Type} (st : HybridHashTable V) (key : String)
    (value : V) (h : st.currentMode_ = HashMode.RobinHood) :
    modeDispatch st key value = robinHoodInsert st key value := by
  unfold modeDispatch
  rw [h]

theorem modeDispatch_eq_ck {V : Type} (st : HybridHashTable V) (key : String)
    (value : V) (h : st.currentMode_ = HashMode.Cuckoo) :
    modeDispatch st key value = cuckooInsert st key value := by
  unfold modeDispatch
  rw [h]

/-- Claim C1 (amended): for every key other than the reserved tombstone
sentinel, every value and every mode, if `insert(k,v)` returns `true` on a
well-formed table with no entry for `k`, then an immediately following
`search(k)` returns `v`. -/
theorem C1_round_trip {V : Type} (st : HybridHashTable V) (key : String) (value : V)
    (hWF : WF st) (hkey : key ≠ TOMBSTONE) (habs : keyAbsent st key)
    (hins : (insert st key value).2 = true) :
    search (insert st key value).1 key = some value := by
  obtain ⟨hlen1, hlen2, hlenh, hlenp, hcap⟩ := hWF
  have hnone : searchInternal st key = none := searchInternal_none_of_absent st key habs
  rcases hres : modeDispatch
      { st with totalInsertions_ := w64 (st.totalInsertions_ + 1) } key value
    with ⟨stM, flagM⟩
  obtain ⟨⟨m1, m2, m3, m4, m5, m6, m7, m8, m9, m10⟩, -⟩ :=
    modeDispatch_spec _ key value stM flagM hres
  cases flagM with
  | true =>
    rw [insert_eq_of_success st key value hnone stM hres]
    show searchInternal stM key = some value
    have hmodeM : stM.currentMode_ = st.currentMode_ := m2
    cases hm : st.currentMode_ with
    | Hopscotch =>
      have hresH : hopscotchInsert
          { st with totalInsertions_ := w64 (st.totalInsertions_ + 1) } key value =
          (stM, true) := by
        rw [← modeDispatch_eq_hop
          { st with totalInsertions_ := w64 (st.totalInsertions_ + 1) } key value hm]
        exact hres
      have hhs := hopscotchInsert_search
        { st with totalInsertions_ := w64 (st.totalInsertions_ + 1) }
        key value hlen1 hlenh hcap hkey habs.1
        stM true hresH
      simp only [searchInternal, hmodeM.trans hm]
      exact hhs.1 rfl
    | RobinHood =>
      have hresR : robinHoodInsert
          { st with totalInsertions_ := w64 (st.totalInsertions_ + 1) } key value =
          (stM, true) := by
        rw [← modeDispatch_eq_rh
          { st with totalInsertions_ := w64 (st.totalInsertions_ + 1) } key value hm]
        exact hres
      have hrh := robinHoodAux_search_spec key value
        (hash { st with totalInsertions_ := w64 (st.totalInsertions_ + 1) } key)
        hkey MAX_PROBE_DISTANCE 0 (key, value) 0
        { st with totalInsertions_ := w64 (st.totalInsertions_ + 1) }
        stM true hlen1 hcap rfl
        (fun j hj => absurd hj (Nat.not_lt_zero j))
        (Or.inl ⟨rfl, noKeyPos_of_tableNoKey _ _ habs.1⟩) hresR
      rcases hrh with ⟨p, hp, hseat, hbefore⟩ | ⟨hfl, -⟩
      · simp only [searchInternal, hmodeM.trans hm]
        refine robinHoodSearch_found stM key value
          (hash { st with totalInsertions_ := w64 (st.totalInsertions_ + 1) } key)
          st.capacity_ p hkey ?_ ?_ hp hseat hbefore
        · show hash stM key = _
          unfold HybridHashTable.hash
          rw [m3, m1]
        · exact m1
      · cases hfl
    | Cuckoo =>
      have hresC : cuckooInsert
          { st with totalInsertions_ := w64 (st.totalInsertions_ + 1) } key value =
          (stM, true) := by
        rw [← modeDispatch_eq_ck
          { st with totalInsertions_ := w64 (st.totalInsertions_ + 1) } key value hm]
        exact hres
      have hck := cuckooAux_search_spec key value hkey (MAX_EVICTIONS + 1) 0
        (key, value)
        { st with totalInsertions_ := w64 (st.totalInsertions_ + 1) }
        stM true hlen1 hlen2 hcap
        (Or.inl ⟨rfl, noKeyPos_of_tableNoKey _ _ habs.1,
          noKeyPos_of_tableNoKey _ _ habs.2.1⟩) hresC
      rcases hck with hfound | ⟨hfl, -⟩
      · simp only [searchInternal, hmodeM.trans hm]
        refine cuckooSearch_found stM key value hkey ?_
        have hh1 : hash1 stM key = hash1 st key := by
          unfold HybridHashTable.hash1
          rw [m4, m1]
        have hh2 : hash2 stM key = hash2 st key := by
          unfold HybridHashTable.hash2
          rw [m5, m1]
        rw [hh1, hh2]
        exact hfound
      · cases hfl
  | false =>
    rw [insert_eq_of_fail st key value hnone stM hres] at hins ⊢
    rcases hstash : insertIntoStash stM key value with ⟨stS, flagS⟩
    rw [hstash] at hins
    have hflagS : flagS = true := hins
    subst hflagS
    obtain ⟨s1, s2, s3, s4, s5, s6, s7, s8, s9, s10, s11⟩ :=
      insertIntoStash_spec stM key value stS true hstash
    simp only [if_true] at s11
    have hstashS : searchStash stS key = some value := by
      unfold searchStash
      rw [s11, m6]
      exact findSome?_key_append key value st.stash_ habs.2.2
    have hmodeS : stS.currentMode_ = st.currentMode_ := s2.trans m2
    show searchInternal stS key = some value
    cases hm : st.currentMode_ with
    | Hopscotch =>
      have hresH : hopscotchInsert
          { st with totalInsertions_ := w64 (st.totalInsertions_ + 1) } key value =
          (stM, false) := by
        rw [← modeDispatch_eq_hop
          { st with totalInsertions_ := w64 (st.totalInsertions_ + 1) } key value hm]
        exact hres
      have hhs := hopscotchInsert_search
        { st with totalInsertions_ := w64 (st.totalInsertions_ + 1) }
        key value hlen1 hlenh hcap hkey habs.1
        stM false hresH
      have hnoKS : tableNoKey stS.table_ key := by
        rw [s3]
        exact hhs.2 rfl
      simp only [searchInternal, hmodeS.trans hm]
      rw [hopscotchSearch_eq_stash stS key hnoKS]
      exact hstashS
    | RobinHood =>
      have hresR : robinHoodInsert
          { st with totalInsertions_ := w64 (st.totalInsertions_ + 1) } key value =
          (stM, false) := by
        rw [← modeDispatch_eq_rh
          { st with totalInsertions_ := w64 (st.totalInsertions_ + 1) } key value hm]
        exact hres
      have hrh := robinHoodAux_search_spec key value
        (hash { st with totalInsertions_ := w64 (st.totalInsertions_ + 1) } key)
        hkey MAX_PROBE_DISTANCE 0 (key, value) 0
        { st with totalInsertions_ := w64 (st.totalInsertions_ + 1) }
        stM false hlen1 hcap rfl
        (fun j hj => absurd hj (Nat.not_lt_zero j))
        (Or.inl ⟨rfl, noKeyPos_of_tableNoKey _ _ habs.1⟩) hresR
      simp only [searchInternal, hmodeS.trans hm]
      rcases hrh with ⟨p, hp, hseat, hbefore⟩ | ⟨-, hnoKp⟩
      · refine robinHoodSearch_found stS key value
          (hash { st with totalInsertions_ := w64 (st.totalInsertions_ + 1) } key)
          st.capacity_ p hkey ?_ ?_ hp ?_ ?_
        · show hash stS key = _
          unfold HybridHashTable.hash
          rw [s7, s1, m3, m1]
        · exact s1.trans m1
        · rw [s3]
          exact hseat
        · rw [s3]
          exact hbefore
      · have hnoKS : tableNoKey stS.table_ key := by
          rw [s3]
          exact tableNoKey_of_noKeyPos _ _ hnoKp
        rw [robinHoodSearch_eq_stash stS key hnoKS]
        exact hstashS
    | Cuckoo =>
      have hresC : cuckooInsert
          { st with totalInsertions_ := w64 (st.totalInsertions_ + 1) } key value =
          (stM, false) := by
        rw [← modeDispatch_eq_ck
          { st with totalInsertions_ := w64 (st.totalInsertions_ + 1) } key value hm]
        exact hres
      have hck := cuckooAux_search_spec key value hkey (MAX_EVICTIONS + 1) 0
        (key, value)
        { st with totalInsertions_ := w64 (st.totalInsertions_ + 1) }
        stM false hlen1 hlen2 hcap
        (Or.inl ⟨rfl, noKeyPos_of_tableNoKey _ _ habs.1,
          noKeyPos_of_tableNoKey _ _ habs.2.1⟩) hresC
      simp only [searchInternal, hmodeS.trans hm]
      rcases hck with hfound | ⟨-, hno1, hno2⟩
      · refine cuckooSearch_found stS key value hkey ?_
        have hh1 : hash1 stS key = hash1 st key := by
          unfold HybridHashTable.hash1
          rw [s8, s1, m4, m1]
        have hh2 : hash2 stS key = hash2 st key := by
          unfold HybridHashTable.hash2
          rw [s9, s1, m5, m1]
        rw [hh1, hh2, s3, s4]
        exact hfound
      · have hnoKS1 : tableNoKey stS.table_ key := by
          rw [s3]
          exact tableNoKey_of_noKeyPos _ _ hno1
        have hnoKS2 : tableNoKey stS.table2_ key := by
          rw [s4]
          exact tableNoKey_of_noKeyPos _ _ hno2
        rw [cuckooSearch_eq_stash stS key hnoKS1 hnoKS2]
        exact hstashS

/-- Witness for C1 at a concrete input: a fresh capacity-16 table in the
default Hopscotch mode, inserting and re-reading the key "a". -/
theorem C1_round_trip_witness :
    search (insert cexFresh16 "a" 5).1 "a" = some 5 :=
  C1_round_trip cexFresh16 "a" 5 (by unfold WF; decide) (by decide)
    (by unfold keyAbsent tableNoKey; decide) (by decide)

/-- Claim C3 is refuted by the code: an insert that fails overall (Cuckoo
eviction budget exhausted and stash full, so `insert` returns `false`)
leaves its partial writes visible.  On `cexFullStash` the failing
`insert("c", 3)` returns `false`, yet afterwards the previously live entry
`("b", 2)` is gone and the never-accepted pair `("c", 3)` is live: the
logical contents are not what they were before the call. -/
theorem C3_failed_insert_mutates :
    (insert cexFullStash "c" 3).2 = false ∧
    search cexFullStash "b" = some 2 ∧
    search (insert cexFullStash "c" 3).1 "b" = none ∧
    search cexFullStash "c" = none ∧
    search (insert cexFullStash "c" 3).1 "c" = some 3 := by
  have hstash_c : searchStash cexFullStash "c" = none :=
    searchStash_eq_none _ _ (fun p hp => by rw [(List.mem_replicate.mp hp).2]; decide)
  have hdup : searchInternal cexFullStash "c" = none := by
    have h0 : searchInternal cexFullStash "c" = searchStash cexFullStash "c" := rfl
    rw [h0, hstash_c]
  have hloop : cuckooAux (MAX_EVICTIONS + 1) 0 ("c", 3) cexFullStashBumped =
      (cexFullStashLooped, false) := rfl
  have hM : modeDispatch
      { cexFullStash with totalInsertions_ := w64 (cexFullStash.totalInsertions_ + 1) }
      "c" 3 = (cexFullStashLooped, false) := hloop
  have hfail := insert_eq_of_fail cexFullStash "c" 3 hdup cexFullStashLooped hM
  have hlenstash : cexFullStashLooped.stash_.length ≥ MAX_STASH_SIZE := by
    show (List.replicate MAX_STASH_SIZE (("z", 0) : String × Nat)).length ≥ MAX_STASH_SIZE
    rw [List.length_replicate]
  have hrefuse : insertIntoStash cexFullStashLooped "c" 3 =
      (cexFullStashLooped, false) := by
    unfold insertIntoStash
    rw [if_pos hlenstash]
  have hins : insert cexFullStash "c" 3 = (cexFullStashLooped, false) := by
    rw [hfail, hrefuse]
  have hstash_b : searchStash cexFullStashLooped "b" = none :=
    searchStash_eq_none _ _ (fun p hp => by rw [(List.mem_replicate.mp hp).2]; decide)
  refine ⟨by rw [hins], rfl, ?_, hdup, by rw [hins]; exact rfl⟩
  rw [hins]
  show searchInternal cexFullStashLooped "b" = none
  have h1 : searchInternal cexFullStashLooped "b" =
      searchStash cexFullStashLooped "b" := rfl
  rw [h1, hstash_b]
